import Mathlib

/-!
Verification of the declaration-modeling, builder and dependency-ordering
engine of dts2nim (src/tools/dts2nim.ts), as a shallow embedding in Lean.

The embedding translates the source functions one by one:
* the identifier sanitizer (`identifierScrub` and its helpers),
* the declaration model (`TypeGen`, `IdentifierGen`, `ConstructorGen`,
  `SignatureGen`, `ClassGen`) with its render and dependency operations,
* the builder (`GenVendor`'s methods `typeGen`, `paramsGen`, `signatureGen`,
  `functionGen`, `variableGen`, `classGen`), with the vendor's memoization
  table and the warning channel threaded as explicit state,
* the dependency graph and the topological emitter built on the external
  `graphlib` tarjan call, whose contract (the strongly connected components
  in reverse topological order) is modeled by the `SCCValid` predicate.

The TypeScript oracle (the `typeChecker`) is modeled as pre-resolved data:
a symbol table `Env` mapping class names to their parent and member tables,
and `TsTypeF` for the oracle's classification of a type.  Exceptions are
modeled with `Except`; the vendor state is returned alongside the result so
that mutations performed before a throw survive it, exactly as in the
JavaScript semantics.  Unbounded recursion through the symbol graph is
modeled with a fuel parameter; exhausted fuel surfaces as the artificial
error `GenError.modelError`, which no theorem's success hypothesis admits.
-/

namespace Dts2nim

/-! ### Identifier sanitizer (source lines 79-127) -/

/-- Source `capitalizeFirstLetter`: `str.charAt(0).toUpperCase() + str.slice(1)`. -/
def capitalizeFirstLetter (str : String) : String :=
  match str.data with
  | [] => ""
  | c :: rest => String.mk (c.toUpper :: rest)

/-- The fixed reserved-word table (source lines 83-91). -/
def reservedWords : List String :=
  ["addr", "and", "as", "asm", "atomic", "bind", "block", "break", "case", "cast",
   "concept", "const", "continue", "converter", "defer", "discard", "distinct", "div", "do",
   "elif", "else", "end", "enum", "except", "export", "finally", "for", "from", "func", "generic",
   "if", "import", "in", "include", "interface", "is", "isnot", "iterator", "let", "macro",
   "method", "mixin", "mod", "nil", "not", "notin", "object", "of", "or", "out", "proc", "ptr",
   "raise", "ref", "return", "shl", "shr", "static", "template", "try", "tuple", "type", "using",
   "var", "when", "while", "with", "without", "xor", "yield"]

/-- JavaScript `id.replace(/_{2,}/, "_")`: only the FIRST run of two or more
underscores is collapsed to a single underscore (the regex has no `g` flag);
the rest of the string is left untouched. -/
def collapseFirstRun : List Char → List Char
  | [] => []
  | '_' :: c :: rest =>
      if c = '_' then '_' :: (c :: rest).dropWhile (fun x => x = '_')
      else '_' :: collapseFirstRun (c :: rest)
  | c :: rest => c :: collapseFirstRun rest

/-- JavaScript `s.replace(/<target>/, repl)` for a single-character pattern:
replaces the first occurrence only. -/
def replaceFirst (target : Char) (repl : List Char) : List Char → List Char
  | [] => []
  | c :: rest => if c = target then repl ++ rest else c :: replaceFirst target repl rest

/-- Source `identifierScrub` (lines 95-104): collapse the first underscore run,
replace the first `$` by `zz`, turn a leading underscore into a `z` prefix with
the next character capitalized, and `x`-prefix reserved words. -/
def identifierScrub (id : String) : String :=
  let id1 := String.mk (replaceFirst '$' ['z', 'z'] (collapseFirstRun id.data))
  let id2 := match id1.data with
    | '_' :: rest => "z" ++ capitalizeFirstLetter (String.mk rest)
    | _ => id1
  if reservedWords.contains id2 then "x" ++ capitalizeFirstLetter (id2.drop 1) else id2

/-- Source `needIdentifierScrub` (lines 106-108). -/
def needIdentifierScrub (id : String) : Bool := id != identifierScrub id

/-- Source `importIdentifier` (lines 111-114): `id.replace(/\$/, "$$$$")`,
i.e. the first `$` becomes a literal `$$`. -/
def importIdentifier (id : String) : String :=
  String.mk (replaceFirst '$' ['$', '$'] id.data)

/-- Source `importDirective` (lines 117-119). -/
def importDirective (id : String) (cpp : Bool := false) : String :=
  "importc" ++ (if cpp then "pp" else "")
    ++ (if id ≠ identifierScrub id then ":\"" ++ importIdentifier id ++ "\"" else "")

/-- Does a character list contain two adjacent underscores? -/
def hasAdjacentUnderscores : List Char → Bool
  | [] => false
  | [_] => false
  | a :: b :: rest => (a = '_' && b = '_') || hasAdjacentUnderscores (b :: rest)

/-! ### The blacklist (source lines 51-58) -/

/-- The fixed blacklist table. -/
def blacklistKeys : List String :=
  ["class:NodeList", "class:Array", "class:ArrayConstructor",
   "field:Element.webkitRequestFullScreen", "field:HTMLVideoElement.webkitEnterFullscreen",
   "field:HTMLVideoElement.webkitExitFullscreen"]

/-- Source `blacklisted(nspace, name)`: looks the name up bare and qualified. -/
def blacklisted (nspace name : String) : Bool :=
  blacklistKeys.contains name || blacklistKeys.contains (nspace ++ ":" ++ name)

/-! ### The oracle's data (modeling `ts.Symbol` / `ts.Type`, spec section 6)

The oracle (TypeScript's `typeChecker`) is external to the engine.  A type is
modeled by its classification `TsTypeF`; a class-like type carries the name of
its symbol, resolved through the symbol table `Env` below.  An unrepresentable
type carries the string the oracle's `typeToString` would print for it. -/

/-- The oracle's classification of a resolved type. -/
inductive TsTypeF where
  | numberT
  | stringT
  | voidT
  | boolT
  | classT (name : String)
  | unusableT (display : String)
deriving DecidableEq, Repr

/-- Model of the oracle's `typeChecker.typeToString`. -/
def typeToString : TsTypeF → String
  | .numberT => "number"
  | .stringT => "string"
  | .voidT => "void"
  | .boolT => "boolean"
  | .classT n => n
  | .unusableT d => d

/-- A parameter symbol as the oracle presents it: a name and a resolved type. -/
structure TsParam where
  name : String
  type : TsTypeF
deriving DecidableEq, Repr

/-- A call signature as the oracle presents it. -/
structure TsSig where
  params : List TsParam
  ret : TsTypeF
deriving DecidableEq, Repr

/-- Model of the oracle's `typeToString` on a function type (used only inside
warning texts). -/
def funTypeToString (sigs : List TsSig) : String :=
  String.intercalate "; "
    (sigs.map (fun sig =>
      "(" ++ String.intercalate ", "
        (sig.params.map (fun p => p.name ++ ": " ++ typeToString p.type))
      ++ ") => " ++ typeToString sig.ret))

/-- A member of a class/interface symbol, classified the way the member loop
of `classGen` classifies `member.flags` (source lines 408-477): a constructor
symbol with one declaration per overload, a property with its resolved type,
a method with its call signatures, or an unrecognized member kind. -/
inductive TsMember where
  | ctorM (overloads : List (List TsParam))
  | propM (name : String) (type : TsTypeF)
  | methodM (name : String) (sigs : List TsSig)
  | otherM (name : String)
deriving DecidableEq, Repr

/-- A class/interface symbol: its single optional inheritance parent (from the
first heritage clause, source lines 392-404) and its member table. -/
structure TsClass where
  parent : Option String
  members : List TsMember
deriving DecidableEq, Repr

/-- The oracle's symbol table: class name to symbol data. -/
abbrev Env := List (String × TsClass)

/-- Resolve a class name in the symbol table. -/
def envFind : Env → String → Option TsClass
  | [], _ => none
  | (k, c) :: rest, n => if k = n then some c else envFind rest n

/-! ### The declaration model (the Gen classes, source lines 149-311) -/

/-- A `TypeGen` result: either a `LiteralTypeGen` (a literal Nim type alias)
or a reference to a `ClassGen` (identified by its name; `ClassGen.typeString`
and `ClassGen.dependKey` both return just the name). -/
inductive TypeGen where
  | literalTypeGen (literal : String)
  | classTypeGen (name : String)
deriving DecidableEq, Repr

/-- `LiteralTypeGen.typeString` returns the literal; `ClassGen.typeString`
returns the class name. -/
def TypeGen.typeString : TypeGen → String
  | .literalTypeGen l => l
  | .classTypeGen n => n

/-- `LiteralTypeGen.dependKey` is null; `ClassGen.dependKey` is the name. -/
def TypeGen.dependKey : TypeGen → Option String
  | .literalTypeGen _ => none
  | .classTypeGen n => some n

/-- `IdentifierGen` (source lines 188-193): the shared shape of
`VariableGen`, `ParameterGen` and `FieldGen`: a name and a type. -/
structure IdentifierGen where
  name : String
  type : TypeGen
deriving DecidableEq, Repr

/-- `IdentifierGen.depends`: `arrayFilter(this.type.dependKey())`. -/
def IdentifierGen.depends (g : IdentifierGen) : List String :=
  g.type.dependKey.toList

/-- `ConstructorGen` (source lines 234-249): a parameter list; the owner is
supplied at render time (set by `ClassGen.init` in the source). -/
structure ConstructorGen where
  params : List IdentifierGen
deriving DecidableEq, Repr

/-- `ConstructorGen.depends`: `allDepends(this.params)`. -/
def ConstructorGen.depends (c : ConstructorGen) : List String :=
  (c.params.map IdentifierGen.depends).flatten

/-- `SignatureGen` (source lines 216-232): name, parameters, return type; the
optional owner is supplied at render time. -/
structure SignatureGen where
  name : String
  params : List IdentifierGen
  returnType : TypeGen
deriving DecidableEq, Repr

/-- `SignatureGen.depends`: parameter dependencies plus the return type key. -/
def SignatureGen.depends (g : SignatureGen) : List String :=
  (g.params.map IdentifierGen.depends).flatten ++ g.returnType.dependKey.toList

/-- `ClassGen` (source lines 261-302).  The source object is mutable and
memoized by name in the vendor's `classes` table; `inherit` holds the parent
`ClassGen` object, modeled here by the parent's name resolved through that
table (an inited node is never mutated again, so the reference and the table
entry agree).  `inited` is set by `init`, `invalid` by the `catch` block of
`classGen`. -/
structure ClassGen where
  name : String
  abstract : Bool
  inherit : Option String := none
  fields : List IdentifierGen := []
  constructors : List ConstructorGen := []
  methods : List SignatureGen := []
  inited : Bool := false
  invalid : Bool := false
deriving DecidableEq, Repr

/-- `ClassGen.depends`: member dependencies (fields, constructors, methods in
that order) plus the parent's key. -/
def ClassGen.depends (c : ClassGen) : List String :=
  ((c.fields.map IdentifierGen.depends).flatten
    ++ (c.constructors.map ConstructorGen.depends).flatten
    ++ (c.methods.map SignatureGen.depends).flatten)
  ++ c.inherit.toList

/-! #### Render operations (declString) -/

/-- `ParameterGen.declString` (source lines 202-206). -/
def paramDeclString (g : IdentifierGen) : String :=
  identifierScrub g.name ++ ": " ++ g.type.typeString

/-- Source `params`: parameters joined by a comma. -/
def paramsString (ps : List IdentifierGen) : String :=
  String.intercalate ", " (ps.map paramDeclString)

/-- `FieldGen.declString` (source lines 208-214). -/
def fieldDeclString (g : IdentifierGen) : String :=
  identifierScrub g.name ++ "*"
    ++ (if needIdentifierScrub g.name then
          " \x7b.importc:\"" ++ importIdentifier g.name ++ "\".\x7d" else "")
    ++ ": " ++ g.type.typeString

/-- `VariableGen.declString` (source lines 195-200). -/
def variableDeclString (g : IdentifierGen) : String :=
  "var " ++ identifierScrub g.name ++ "* \x7b." ++ importDirective g.name
    ++ ", nodecl.\x7d: " ++ g.type.typeString

/-- `SignatureGen.declString` (source lines 219-225); `owner` is the name of
the owning class when the signature is a method (adds the `self` receiver and
switches to `importcpp`). -/
def SignatureGen.declString (owner : Option String) (g : SignatureGen) : String :=
  let fullParams :=
    (match owner with
     | some o => [({ name := "self", type := .classTypeGen o } : IdentifierGen)]
     | none => []) ++ g.params
  "proc " ++ identifierScrub g.name ++ "*(" ++ paramsString fullParams ++ ") : "
    ++ g.returnType.typeString
    ++ " \x7b." ++ importDirective g.name owner.isSome ++ ".\x7d"

/-- `ConstructorGen.declString` (source lines 237-243), rendered against the
owning class's name. -/
def ConstructorGen.declString (ownerName : String) (c : ConstructorGen) : String :=
  let scrubbed := identifierScrub ownerName
  "proc new" ++ capitalizeFirstLetter scrubbed ++ "*(" ++ paramsString c.params ++ ") : "
    ++ scrubbed
    ++ " \x7b.importcpp:\"new " ++ importIdentifier ownerName
    ++ (if c.params.length ≠ 0 then "(@)" else "") ++ "\".\x7d"

/-- `ClassGen.declString` (source lines 282-291): the type header, the fields
prefixed by a newline and indentation, then (for non-abstract classes) the
constructors and the methods, each prefixed by a newline. -/
def ClassGen.declString (c : ClassGen) : String :=
  "type " ++ identifierScrub c.name ++ "* \x7b." ++ importDirective c.name
    ++ ".\x7d = ref object of "
    ++ (match c.inherit with | some i => identifierScrub i | none => "RootObj")
    ++ String.join (c.fields.map (fun f => "\n    " ++ fieldDeclString f))
    ++ (if c.abstract then "" else
          String.join (c.constructors.map (fun k => "\n" ++ k.declString c.name)))
    ++ String.join (c.methods.map (fun m => "\n" ++ m.declString (some c.name)))

/-! ### Errors (source lines 129-147)

`UnusableType` carries the offending type; `GenConstructFail` carries a
message.  `modelError` is an artifact of the shallow embedding only: it marks
fuel exhaustion of the recursion model and a symbol missing from the modeled
oracle table, situations the JavaScript program cannot observe (its recursion
is unbounded and the oracle always returns the symbols it declared).  No
result below that assumes a successful (`Except.ok`) run can be satisfied
by a `modelError` path. -/
inductive GenError where
  | unusableType (type : TsTypeF)
  | genConstructFail (message : String)
  | modelError (message : String)
deriving DecidableEq, Repr

/-! ### The vendor state

The source's `GenVendor` owns the memoization table `classes`; warnings are
printed to stderr by `warn`.  Both are modeled as explicit state.  Every
builder operation returns the state next to its `Except` result, so state
changes made before a throw persist, exactly as mutation does in JavaScript. -/
/-- The builder's state: the memoization table and the warning channel. -/
structure VState where
  classes : List (String × ClassGen) := []
  warnings : List String := []
deriving DecidableEq, Repr

/-- Look a class up in the memoization table (`this.classes[name]`). -/
def lookupClassL : List (String × ClassGen) → String → Option ClassGen
  | [], _ => none
  | (k, c) :: rest, n => if k = n then some c else lookupClassL rest n

def lookupClass (s : VState) (n : String) : Option ClassGen :=
  lookupClassL s.classes n

/-- Store a class under a name (`this.classes[name] = result`): update the
entry if the name is present, append it otherwise. -/
def storeClassL : List (String × ClassGen) → String → ClassGen → List (String × ClassGen)
  | [], n, c => [(n, c)]
  | (k, c0) :: rest, n, c =>
      if k = n then (k, c) :: rest else (k, c0) :: storeClassL rest n c

def storeClass (s : VState) (n : String) (c : ClassGen) : VState :=
  { s with classes := storeClassL s.classes n c }

/-- `result.invalid = true` in the catch block of `classGen`: the stored
object is marked invalid in place. -/
def markInvalidL : List (String × ClassGen) → String → List (String × ClassGen)
  | [], _ => []
  | (k, c) :: rest, n =>
      if k = n then (k, { c with invalid := true }) :: markInvalidL rest n
      else (k, c) :: markInvalidL rest n

def markInvalid (s : VState) (n : String) : VState :=
  { s with classes := markInvalidL s.classes n }

/-- `warn(...)`: one diagnostic line. -/
def warn (s : VState) (msg : String) : VState :=
  { s with warnings := s.warnings ++ [msg] }

/-- Source `chainHasField` (lines 304-311): walk the inheritance chain of a
`ClassGen`, looking for a field of the given name.  The parent reference is
resolved through the memoization table; the fuel bounds the chain length (a
chain of inited nodes is finite, since each parent finished initializing
strictly before its child). -/
def chainHasField (s : VState) : Nat → Option ClassGen → String → Bool
  | _, none, _ => false
  | 0, some _, _ => false
  | fuel + 1, some g, fname =>
      g.fields.any (fun f => f.name = fname)
      || chainHasField s fuel (g.inherit.bind (lookupClass s)) fname

/-! ### The builder (`GenVendor`, source lines 313-512)

All functions take a fuel argument; every call decrements it, so the
recursion nest (classes reached through parents and member types, and the
member/parameter lists walked element by element) is bounded by the fuel.
Fuel exhaustion returns `GenError.modelError`. -/
/-- The accumulator of the member loop of `classGen` (the local variables
`fields`, `methods`, `constructors`, `foundConstructors`, source lines
385-388). -/
structure MemberAcc where
  fields : List IdentifierGen := []
  methods : List SignatureGen := []
  constructors : List ConstructorGen := []
  foundConstructors : Nat := 0
deriving DecidableEq, Repr

mutual

/-- `GenVendor.typeGen` (source lines 499-511): classify the oracle type in
the source's order (number, string, void, boolean, class-with-symbol), and
throw `UnusableType` otherwise. -/
def typeGen (env : Env) : Nat → VState → TsTypeF → VState × Except GenError TypeGen
  | _, s, .numberT => (s, .ok (.literalTypeGen "float"))
  | _, s, .stringT => (s, .ok (.literalTypeGen "cstring"))
  | _, s, .voidT => (s, .ok (.literalTypeGen "void"))
  | _, s, .boolT => (s, .ok (.literalTypeGen "bool"))
  | 0, s, .classT _ => (s, .error (.modelError "fuel"))
  | fuel + 1, s, .classT n =>
      match classGen env fuel s n false with
      | (s', .ok c) => (s', .ok (.classTypeGen c.name))
      | (s', .error e) => (s', .error e)
  | _, s, .unusableT d => (s, .error (.unusableType (.unusableT d)))

/-- `GenVendor.paramsGen` (source lines 335-339): map `typeGen` over the
parameter symbols; the first failure aborts the whole parameter list (the
state changes of earlier parameters persist). -/
def paramsGen (env : Env) : Nat → VState → List TsParam → VState × Except GenError (List IdentifierGen)
  | _, s, [] => (s, .ok [])
  | 0, s, _ :: _ => (s, .error (.modelError "fuel"))
  | fuel + 1, s, p :: rest =>
      match typeGen env fuel s p.type with
      | (s', .ok t) =>
          match paramsGen env fuel s' rest with
          | (s'', .ok ts) => (s'', .ok (⟨p.name, t⟩ :: ts))
          | (s'', .error e) => (s'', .error e)
      | (s', .error e) => (s', .error e)

/-- `GenVendor.signatureGen` (source lines 341-343): parameters first, then
the return type (JavaScript evaluates the constructor arguments left to
right). -/
def signatureGen (env : Env) : Nat → VState → String → TsSig → VState × Except GenError SignatureGen
  | 0, s, _, _ => (s, .error (.modelError "fuel"))
  | fuel + 1, s, name, sig =>
      match paramsGen env fuel s sig.params with
      | (s', .ok ps) =>
          match typeGen env fuel s' sig.ret with
          | (s'', .ok r) => (s'', .ok ⟨name, ps, r⟩)
          | (s'', .error e) => (s'', .error e)
      | (s', .error e) => (s', .error e)

/-- The per-call-signature loop of `GenVendor.functionGen` (source lines
349-366): each signature is attempted independently; an `UnusableType`
failure is downgraded to a warning, anything else is rethrown. -/
def funSigsFold (env : Env) : Nat → VState → String → List TsSig → Nat → List TsSig
    → List SignatureGen → VState × Except GenError (List SignatureGen)
  | _, s, _, _, _, [], acc => (s, .ok acc)
  | 0, s, _, _, _, _ :: _, _ => (s, .error (.modelError "fuel"))
  | fuel + 1, s, name, allSigs, counter, sig :: rest, acc =>
      let counter' := counter + 1
      match signatureGen env fuel s name sig with
      | (s', .ok g) => funSigsFold env fuel s' name allSigs counter' rest (acc ++ [g])
      | (s', .error (.unusableType ty)) =>
          funSigsFold env fuel
            (warn s' ("Could not translate function " ++ name
              ++ (if counter' > 0 then ", call signature #" ++ toString counter' else "")
              ++ " because tried to translate " ++ funTypeToString allSigs
              ++ " but couldn't translate type " ++ typeToString ty))
            name allSigs counter' rest acc
      | (s', .error e) => (s', .error e)

/-- `GenVendor.functionGen` (source lines 345-367). -/
def functionGen (env : Env) : Nat → VState → String → List TsSig → VState × Except GenError (List SignatureGen)
  | 0, s, _, _ => (s, .error (.modelError "fuel"))
  | fuel + 1, s, name, sigs =>
      if blacklisted "variable" name then
        (s, .error (.genConstructFail ("Refusing to translate blacklisted function " ++ name)))
      else funSigsFold env fuel s name sigs 0 sigs []

/-- `GenVendor.variableGen` (source lines 319-333): the blacklist refusal and
any nested `GenConstructFail` propagate; an `UnusableType` is rewrapped into a
`GenConstructFail` naming the variable. -/
def variableGen (env : Env) : Nat → VState → String → TsTypeF → VState × Except GenError IdentifierGen
  | 0, s, _, _ => (s, .error (.modelError "fuel"))
  | fuel + 1, s, name, t =>
      if blacklisted "variable" name then
        (s, .error (.genConstructFail ("Refusing to translate blacklisted variable " ++ name)))
      else
        match typeGen env fuel s t with
        | (s', .ok tg) => (s', .ok ⟨name, tg⟩)
        | (s', .error (.unusableType ty)) =>
            (s', .error (.genConstructFail ("Could not translate variable " ++ name
              ++ " because couldn't translate type " ++ typeToString ty)))
        | (s', .error e) => (s', .error e)

/-- The constructor-declaration loop of `classGen` (source lines 413-430):
each overload is counted (`foundConstructors++`) and then attempted; an
`UnusableType` failure is downgraded to a warning, anything else is
rethrown. -/
def ctorDeclsFold (env : Env) : Nat → VState → String → Nat → List ConstructorGen
    → List (List TsParam) → VState × Except GenError (Nat × List ConstructorGen)
  | _, s, _, found, acc, [] => (s, .ok (found, acc))
  | 0, s, _, _, _, _ :: _ => (s, .error (.modelError "fuel"))
  | fuel + 1, s, className, found, acc, ov :: rest =>
      let found' := found + 1
      match paramsGen env fuel s ov with
      | (s', .ok ps) => ctorDeclsFold env fuel s' className found' (acc ++ [⟨ps⟩]) rest
      | (s', .error (.unusableType ty)) =>
          ctorDeclsFold env fuel
            (warn s' ("Could not translate constructor #" ++ toString found'
              ++ " on class " ++ className
              ++ " because couldn't translate type " ++ typeToString ty))
            className found' acc rest
      | (s', .error e) => (s', .error e)

/-- The per-call-signature loop of the method branch of `classGen` (source
lines 454-470).  The warning text faithfully reproduces the source's template,
including its use of the class symbol's name where the method name was
intended and the literal `$name}`. -/
def methodSigsFold (env : Env) : Nat → VState → String → String → List TsSig → Nat
    → List TsSig → List SignatureGen → VState × Except GenError (List SignatureGen)
  | _, s, _, _, _, _, [], acc => (s, .ok acc)
  | 0, s, _, _, _, _, _ :: _, _ => (s, .error (.modelError "fuel"))
  | fuel + 1, s, className, mname, allSigs, counter, sig :: rest, acc =>
      let counter' := counter + 1
      match signatureGen env fuel s mname sig with
      | (s', .ok g) => methodSigsFold env fuel s' className mname allSigs counter' rest (acc ++ [g])
      | (s', .error (.unusableType ty)) =>
          methodSigsFold env fuel
            (warn s' ("Could not translate method " ++ className ++ " on class $name\x7d"
              ++ (if counter' > 0 then ", call signature #" ++ toString counter' else "")
              ++ " because tried to translate " ++ funTypeToString allSigs
              ++ " but couldn't translate type " ++ typeToString ty))
            className mname allSigs counter' rest acc
      | (s', .error e) => (s', .error e)

/-- One iteration of the member loop of `classGen` (source lines 408-477),
dispatching on the member's symbol flags. -/
def processMember (env : Env) : Nat → VState → String → Option ClassGen → MemberAcc
    → TsMember → VState × Except GenError MemberAcc
  | 0, s, _, _, _, _ => (s, .error (.modelError "fuel"))
  | fuel + 1, s, className, _, acc, .ctorM overloads =>
      match ctorDeclsFold env fuel s className acc.foundConstructors acc.constructors overloads with
      | (s', .ok (found', ctors')) =>
          (s', .ok { acc with foundConstructors := found', constructors := ctors' })
      | (s', .error e) => (s', .error e)
  | fuel + 1, s, className, inheritGen, acc, .propM fname ftype =>
      if blacklisted "field" (className ++ "." ++ fname) then
        (warn s ("Refusing to translate blacklisted field " ++ fname
          ++ " of class " ++ className), .ok acc)
      else if ! chainHasField s fuel inheritGen fname then
        match typeGen env fuel s ftype with
        | (s', .ok t) => (s', .ok { acc with fields := acc.fields ++ [⟨fname, t⟩] })
        | (s', .error (.unusableType ty)) =>
            (warn s' ("Could not translate property " ++ fname ++ " on class " ++ className
              ++ "because couldn't translate type " ++ typeToString ty), .ok acc)
        | (s', .error e) => (s', .error e)
      else (s, .ok acc)
  | fuel + 1, s, className, _, acc, .methodM mname sigs =>
      if blacklisted "field" (className ++ "." ++ mname) then
        (warn s ("Refusing to translate blacklisted method " ++ mname
          ++ " of class " ++ className), .ok acc)
      else
        match methodSigsFold env fuel s className mname sigs 0 sigs acc.methods with
        | (s', .ok ms) => (s', .ok { acc with methods := ms })
        | (s', .error e) => (s', .error e)
  | _ + 1, s, className, _, acc, .otherM mname =>
      (warn s ("Could not figure out how to translate member " ++ mname
        ++ " of class " ++ className), .ok acc)

/-- The member loop of `classGen`. -/
def membersFold (env : Env) : Nat → VState → String → Option ClassGen → MemberAcc
    → List TsMember → VState × Except GenError MemberAcc
  | _, s, _, _, acc, [] => (s, .ok acc)
  | 0, s, _, _, _, _ :: _ => (s, .error (.modelError "fuel"))
  | fuel + 1, s, className, inheritGen, acc, m :: rest =>
      match processMember env fuel s className inheritGen acc m with
      | (s', .ok acc') => membersFold env fuel s' className inheritGen acc' rest
      | (s', .error e) => (s', .error e)

/-- The body of the `try` block of `classGen` (source lines 384-492): resolve
the parent (failing with the descriptive mutual-recursion message if the
parent node is not yet inited), walk the members, apply the constructor
fallback, then `init` the result and store it. -/
def classBody (env : Env) : Nat → VState → String → Bool → VState × Except GenError ClassGen
  | 0, s, _, _ => (s, .error (.modelError "fuel"))
  | fuel + 1, s, name, abstract =>
      match envFind env name with
      | none => (s, .error (.modelError ("no oracle symbol for " ++ name)))
      | some sym =>
          match ((match sym.parent with
                 | none => (s, .ok none)
                 | some inheritName =>
                     match classGen env fuel s inheritName false with
                     | (s', .ok ig) =>
                         if ig.inited then (s', .ok (some ig))
                         else (s', .error (.genConstructFail (name
                           ++ " is mutually recursive with its ancestor " ++ inheritName
                           ++ " in a confusing way")))
                     | (s', .error e) => (s', .error e))
                 : VState × Except GenError (Option ClassGen)) with
          | (s1, .error e) => (s1, .error e)
          | (s1, .ok inheritGen) =>
              match membersFold env fuel s1 name inheritGen {} sym.members with
              | (s2, .error e) => (s2, .error e)
              | (s2, .ok acc) =>
                  let constructors :=
                    if acc.foundConstructors = 0 then
                      match inheritGen with
                      | some ig => ig.constructors.map (fun k => ConstructorGen.mk k.params)
                      | none => [ConstructorGen.mk []]
                    else acc.constructors
                  let final : ClassGen :=
                    { name := name, abstract := abstract,
                      inherit := inheritGen.map ClassGen.name,
                      fields := acc.fields, constructors := constructors,
                      methods := acc.methods, inited := true, invalid := false }
                  (storeClass s2 name final, .ok final)

/-- `GenVendor.classGen` (source lines 369-497): memoized by name (an invalid
memo entry raises the reuse error), blacklist-checked, then the fresh node is
stored in `building` state (`inited = false`) and the body runs; any failure
of the body marks the stored node invalid and rethrows. -/
def classGen (env : Env) : Nat → VState → String → Bool → VState × Except GenError ClassGen
  | fuel, s, name, abstract =>
      match lookupClass s name with
      | some already =>
          if already.invalid then
            (s, .error (.genConstructFail "Tried to reuse unbuildable type"))
          else (s, .ok already)
      | none =>
          if blacklisted "class" name then
            (s, .error (.genConstructFail ("Refusing to translate blacklisted class " ++ name)))
          else
            match fuel with
            | 0 => (s, .error (.modelError "fuel"))
            | fuel + 1 =>
                let result : ClassGen := { name := name, abstract := abstract }
                let s1 := storeClass s name result
                match classBody env fuel s1 name abstract with
                | (s', .ok c) => (s', .ok c)
                | (s', .error e) => (markInvalid s' name, .error e)

end

/-! ### The top-level symbol loop (source lines 541-585) -/
/-- A module-scope symbol as the loop classifies `sym.flags`: class,
interface, (block- or function-scoped) variable, function, or unsupported
(the last carries the display string of its type, used in the warning). -/
inductive TopSym where
  | classSym (name : String)
  | interfaceSym (name : String)
  | varSym (name : String) (type : TsTypeF)
  | funcSym (name : String) (sigs : List TsSig)
  | otherSym (name : String) (typeStr : String)
deriving DecidableEq, Repr

/-- A top-level generator as collected in `generators`: a `VariableGen`, a
free-function `SignatureGen`, or a `ClassGen`. -/
inductive GenTop where
  | variableG (v : IdentifierGen)
  | signatureG (g : SignatureGen)
  | classG (c : ClassGen)
deriving DecidableEq, Repr

/-- `Gen.dependKey` of a top-level generator (always the name: `IdentifierGen`,
`SignatureGen` and `ClassGen` all return it). -/
def GenTop.dependKey : GenTop → String
  | .variableG v => v.name
  | .signatureG g => g.name
  | .classG c => c.name

/-- `Gen.depends` of a top-level generator. -/
def GenTop.depends : GenTop → List String
  | .variableG v => v.depends
  | .signatureG g => g.depends
  | .classG c => c.depends

/-- `Gen.declString` of a top-level generator (a free function has no owner). -/
def GenTop.declString : GenTop → String
  | .variableG v => variableDeclString v
  | .signatureG g => g.declString none
  | .classG c => c.declString

/-- One iteration of the symbol loop: dispatch on the symbol kind, catch
`GenConstructFail` and downgrade it to a warning; any other error (an
`UnusableType` escaping to this level) is rethrown and would crash the
program. -/
def processSymbol (env : Env) (fuel : Nat) (s : VState) (gens : List GenTop) :
    TopSym → VState × Except GenError (List GenTop)
  | .classSym n =>
      match classGen env fuel s n false with
      | (s', .ok c) => (s', .ok (gens ++ [.classG c]))
      | (s', .error (.genConstructFail m)) => (warn s' m, .ok gens)
      | (s', .error e) => (s', .error e)
  | .interfaceSym n =>
      match classGen env fuel s n true with
      | (s', .ok c) => (s', .ok (gens ++ [.classG c]))
      | (s', .error (.genConstructFail m)) => (warn s' m, .ok gens)
      | (s', .error e) => (s', .error e)
  | .varSym n t =>
      match variableGen env fuel s n t with
      | (s', .ok v) => (s', .ok (gens ++ [.variableG v]))
      | (s', .error (.genConstructFail m)) => (warn s' m, .ok gens)
      | (s', .error e) => (s', .error e)
  | .funcSym n sigs =>
      match functionGen env fuel s n sigs with
      | (s', .ok gs) => (s', .ok (gens ++ gs.map .signatureG))
      | (s', .error (.genConstructFail m)) => (warn s' m, .ok gens)
      | (s', .error e) => (s', .error e)
  | .otherSym n tstr =>
      (warn s ("Could not figure out how to translate symbol " ++ n ++ " : " ++ tstr),
       .ok gens)

/-- The symbol loop over all module-scope symbols. -/
def processSymbols (env : Env) (fuel : Nat) : VState → List GenTop → List TopSym
    → VState × Except GenError (List GenTop)
  | s, gens, [] => (s, .ok gens)
  | s, gens, sym :: rest =>
      match processSymbol env fuel s gens sym with
      | (s', .ok gens') => processSymbols env fuel s' gens' rest
      | (s', .error e) => (s', .error e)

/-! ### The dependency graph (source lines 590-597)

`graphlib.Graph`: `setNode(key, gen)` creates or overwrites a node with a
value; `setEdge(a, b)` creates the endpoints without a value when they are
missing and records the edge.  (graphlib stores the edge set without
duplicates; this model keeps duplicates in a list, which no property below
can observe, since they only look at edge membership.) -/
structure DepGraph where
  nodes : List (String × Option GenTop) := []
  edges : List (String × String) := []
deriving DecidableEq, Repr

/-- Look a node up by key. -/
def lookupNode : List (String × Option GenTop) → String → Option (Option GenTop)
  | [], _ => none
  | kv :: rest, k => if kv.1 = k then some kv.2 else lookupNode rest k

/-- Update-or-append for the node list. -/
def setNodeL : List (String × Option GenTop) → String → Option GenTop
    → List (String × Option GenTop)
  | [], k, v => [(k, v)]
  | kv :: rest, k, v => if kv.1 = k then (k, v) :: rest else kv :: setNodeL rest k v

/-- `dependencies.setNode(key, gen)`. -/
def DepGraph.setNode (g : DepGraph) (k : String) (v : GenTop) : DepGraph :=
  { g with nodes := setNodeL g.nodes k (some v) }

/-- Create a valueless node if the key is absent (what `setEdge` does to a
missing endpoint). -/
def DepGraph.ensureNode (g : DepGraph) (k : String) : DepGraph :=
  match lookupNode g.nodes k with
  | some _ => g
  | none => { g with nodes := g.nodes ++ [(k, none)] }

/-- `dependencies.setEdge(a, b)`. -/
def DepGraph.setEdge (g : DepGraph) (a b : String) : DepGraph :=
  let g' := (g.ensureNode a).ensureNode b
  { g' with edges := g'.edges ++ [(a, b)] }

/-- `dependencies.node(k)`: the value stored at a key (none when the node is
absent or valueless). -/
def nodeValue (g : DepGraph) (k : String) : Option GenTop :=
  match lookupNode g.nodes k with
  | some v => v
  | none => none

/-- The graph-building loop (source lines 592-597): for each generator, store
it under its key and add an edge from its key to each of its dependencies. -/
def addGen (g : DepGraph) (gen : GenTop) : DepGraph :=
  gen.depends.foldl (fun g' dep => g'.setEdge gen.dependKey dep) (g.setNode gen.dependKey gen)

def buildGraph (gens : List GenTop) : DepGraph :=
  gens.foldl addGen {}

/-! ### The tarjan contract and the emitter (source lines 599-615)

The strongly-connected-components analysis is `graphlib.alg.tarjan`, an
external library call.  Modelled from the spec: "Run a strongly-connected-
components analysis, which returns component groups in reverse-topological
order with respect to the edges."  `SCCValid g groups` states the contract
the emitter relies on: the groups partition the node set, each group is
duplicate-free, an edge's target never lives in a strictly later group than
its source, and inside a component of two or more members every member has
an outgoing edge back into the component (true of any strongly connected
set of two or more nodes, since a cycle witnessing mutual reachability stays
inside the component). -/
structure SCCValid (g : DepGraph) (groups : List (List String)) : Prop where
  cover_nodes : ∀ kv ∈ g.nodes, ∃ grp ∈ groups, kv.1 ∈ grp
  cover_groups : ∀ grp ∈ groups, ∀ k ∈ grp, k ∈ g.nodes.map Prod.fst
  disjoint : ∀ i j : Fin groups.length, ∀ k,
    k ∈ groups.get i → k ∈ groups.get j → i = j
  nodup_in : ∀ grp ∈ groups, grp.Nodup
  rev_topo : ∀ i j : Fin groups.length, ∀ a, a ∈ groups.get i →
    ∀ b, b ∈ groups.get j → (a, b) ∈ g.edges → j ≤ i
  big_source : ∀ grp ∈ groups, 1 < grp.length → ∀ a ∈ grp, ∃ b, b ∈ grp ∧ (a, b) ∈ g.edges

/-- `x.dependKey()` on the generator stored at a graph node.  In the source
this is read off the `Gen` object `dependencies.node(id)`; for every id the
emitter reads it on, the node carries a generator whose key is the id itself
(nodes are stored under their own `dependKey`), so the fallback branch is
unreachable there and returns the id as well. -/
def dependKeyAt (g : DepGraph) (id : String) : String :=
  match nodeValue g id with
  | some gen => gen.dependKey
  | none => id

/-- The emission loop (source lines 602-613): a group of two or more members
produces one diagnostic naming every member and emits nothing; a singleton
group whose node carries a generator emits it; a singleton whose node is
valueless is dropped silently.  The first component is `sortedGenerators`,
the second the cycle diagnostics (each diagnostic is kept as the list of
names the source joins with a comma into one warning line). -/
def sortAndWarn (g : DepGraph) (groups : List (List String)) :
    List GenTop × List (List String) :=
  groups.foldl
    (fun acc grp =>
      if 1 < grp.length then (acc.1, acc.2 ++ [grp.map (dependKeyAt g)])
      else
        match grp with
        | [id] =>
            match nodeValue g id with
            | some gen => (acc.1 ++ [gen], acc.2)
            | none => acc
        | _ => acc)
    ([], [])

/-- The final output (source line 615): the surviving declarations rendered
in order, joined by the fixed separator. -/
def finalOutput (g : DepGraph) (groups : List (List String)) : String :=
  String.intercalate "\n" ((sortAndWarn g groups).1.map GenTop.declString)

/-- The graph invariant established by the construction loop: a node value's
dependency key is the node's own key, every dependency of a stored generator
has its edge in the graph, and every edge's source carries a generator. -/
def GraphInv (g : DepGraph) : Prop :=
  (∀ k gen, nodeValue g k = some gen →
      gen.dependKey = k ∧ ∀ d ∈ gen.depends, (k, d) ∈ g.edges)
  ∧ (∀ a b, (a, b) ∈ g.edges → ∃ gen, nodeValue g a = some gen)

/-- The selection the emission loop applies to a singleton component. -/
def pickSingleton (g : DepGraph) : List String → Option GenTop
  | [id] => nodeValue g id
  | _ => none

/-- Extract the generator list from a successful run. -/
def gensOk (r : VState × Except GenError (List GenTop)) : List GenTop :=
  match r.2 with
  | .ok l => l
  | .error _ => []

/-- A class `A` whose only member is a field of type `A` itself. -/
def envSelf : Env := [("A", ⟨none, [.propM "x" (.classT "A")]⟩)]

/-- The generators the symbol loop builds for `envSelf`. -/
def gensSelf : List GenTop := gensOk (processSymbols envSelf 30 {} [] [.classSym "A"])

/-- The tarjan output for `gensSelf`'s graph: one singleton component (a
self-loop does not enlarge a component). -/
def groupsSelf : List (List String) := [["A"]]

/-- The declaration built for `A` in `envSelf`: a class with a self-typed
field and the synthesized zero-parameter constructor. -/
def genSelfA : GenTop :=
  .classG { name := "A", abstract := false, inherit := none,
            fields := [⟨"x", .classTypeGen "A"⟩], constructors := [⟨[]⟩],
            methods := [], inited := true, invalid := false }

/-- Two classes with mutually typed fields: `A.b : B` and `B.a : A`. -/
def envAB : Env :=
  [("A", ⟨none, [.propM "b" (.classT "B")]⟩),
   ("B", ⟨none, [.propM "a" (.classT "A")]⟩)]

/-- The generators the symbol loop builds for `envAB`. -/
def gensAB : List GenTop :=
  gensOk (processSymbols envAB 30 {} [] [.classSym "A", .classSym "B"])

/-- The tarjan output for `gensAB`'s graph: one two-member component. -/
def groupsAB : List (List String) := [["A", "B"]]

/-- `keyPres s s'`: every name memoized in `s` is still memoized in `s'`. -/
def keyPres (s s' : VState) : Prop :=
  ∀ n, (lookupClass s n).isSome → (lookupClass s' n).isSome

def PresAll (fuel : Nat) : Prop :=
  (∀ env s t, keyPres s (typeGen env fuel s t).1)
  ∧ (∀ env s ps, keyPres s (paramsGen env fuel s ps).1)
  ∧ (∀ env s n sig, keyPres s (signatureGen env fuel s n sig).1)
  ∧ (∀ env s cn fnd acc ovs, keyPres s (ctorDeclsFold env fuel s cn fnd acc ovs).1)
  ∧ (∀ env s cn mn allS cnt sigs acc,
      keyPres s (methodSigsFold env fuel s cn mn allS cnt sigs acc).1)
  ∧ (∀ env s cn ig acc m, keyPres s (processMember env fuel s cn ig acc m).1)
  ∧ (∀ env s cn ig acc ms, keyPres s (membersFold env fuel s cn ig acc ms).1)
  ∧ (∀ env s n ab, keyPres s (classBody env fuel s n ab).1)
  ∧ (∀ env s n ab, keyPres s (classGen env fuel s n ab).1)

/-- The symbol table for the C7 witness: class `C` inherits from `P`. -/
def envCP : Env := [("C", ⟨some "P", []⟩)]

/-- A vendor state in which `P` is memoized but still building (not inited). -/
def stateP : VState := ⟨[("P", { name := "P", abstract := false })], []⟩

/-- The parent used by the C9 counterexample: it already declares the field
`webkitRequestFullScreen`, which is also on the fixed denylist under
`field:Element.webkitRequestFullScreen`. -/
def parentElement : ClassGen :=
  { name := "P", abstract := false, inherit := none,
    fields := [⟨"webkitRequestFullScreen", .literalTypeGen "float"⟩],
    constructors := [⟨[]⟩], methods := [], inited := true, invalid := false }

/-- The parent used by the C9 witness: it declares a (non-denylisted) field
`x`. -/
def parentWithX : ClassGen :=
  { name := "P", abstract := false, inherit := none,
    fields := [⟨"x", .literalTypeGen "float"⟩], constructors := [⟨[]⟩],
    methods := [], inited := true, invalid := false }

/-- The number of constructor declarations a member contributes to
`foundConstructors`. -/
def memberCtorCount : TsMember → Nat
  | .ctorM ovs => ovs.length
  | _ => 0

/-- The total number of constructor declarations in a member table. -/
def countCtorOverloads (ms : List TsMember) : Nat :=
  (ms.map memberCtorCount).sum

/-- The pre-built parent for the C3 scenarios: one resolved constructor
taking a float parameter. -/
def pgP : ClassGen :=
  { name := "P", abstract := false, inherit := none, fields := [],
    constructors := [⟨[⟨"x", .literalTypeGen "float"⟩]⟩], methods := [],
    inited := true, invalid := false }

/-- A vendor state in which `P` is already built. -/
def statePBuilt : VState := ⟨[("P", pgP)], []⟩

/-- Class `K`: one constructor overload whose parameter type is
unrepresentable; parent `P`. -/
def envK : Env := [("K", ⟨some "P", [.ctorM [[⟨"b", .unusableT "Weird"⟩]]]⟩)]

/-- Class `K2`: no constructor declarations at all; parent `P`. -/
def envK2 : Env := [("K2", ⟨some "P", [.methodM "m" [⟨[], .voidT⟩]]⟩)]

/-- The node built for `K2`. -/
def cK2 : ClassGen :=
  { name := "K2", abstract := false, inherit := some "P", fields := [],
    constructors := [⟨[⟨"x", .literalTypeGen "float"⟩]⟩],
    methods := [⟨"m", [], .literalTypeGen "void"⟩], inited := true, invalid := false }

/-- The vendor state after building `K2`. -/
def stateK2out : VState := ⟨[("P", pgP), ("K2", cK2)], []⟩

/-- Is the classification one of the four literal kinds? -/
def TsTypeF.simpleUsable : TsTypeF → Bool
  | .numberT | .stringT | .voidT | .boolT => true
  | _ => false

/-- Does the classification avoid class references? -/
def TsTypeF.classFree : TsTypeF → Bool
  | .classT _ => false
  | _ => true

/-- A call signature free of class references. -/
def classFreeSig (sig : TsSig) : Bool :=
  sig.params.all (fun p => p.type.classFree) && sig.ret.classFree

/-- Does every type in the signature resolve? -/
def sigResolves (sig : TsSig) : Bool :=
  sig.params.all (fun p => p.type.simpleUsable) && sig.ret.simpleUsable

/-- The literal translation of a simple type. -/
def pureType : TsTypeF → TypeGen
  | .numberT => .literalTypeGen "float"
  | .stringT => .literalTypeGen "cstring"
  | .voidT => .literalTypeGen "void"
  | .boolT => .literalTypeGen "bool"
  | .classT n => .classTypeGen n
  | .unusableT _ => .literalTypeGen ""

/-- The signature a resolving class-free signature translates to. -/
def pureSig (name : String) (sig : TsSig) : SignatureGen :=
  ⟨name, sig.params.map (fun p => ⟨p.name, pureType p.type⟩), pureType sig.ret⟩

/-- The type on which a non-resolving class-free signature fails: the first
unresolvable parameter, or else the return type. -/
def sigBadType (sig : TsSig) : TsTypeF :=
  match sig.params.find? (fun p => ! p.type.simpleUsable) with
  | some p => p.type
  | none => sig.ret

/-- The warnings the call-signature loop of `functionGen` is expected to
emit: one per failing signature, numbered by its position. -/
def expectedFunWarnings (name : String) (allSigs : List TsSig) : Nat → List TsSig → List String
  | _, [] => []
  | counter, sig :: rest =>
      (if sigResolves sig then [] else
        ["Could not translate function " ++ name
          ++ (if counter + 1 > 0 then ", call signature #" ++ toString (counter + 1) else "")
          ++ " because tried to translate " ++ funTypeToString allSigs
          ++ " but couldn't translate type " ++ typeToString (sigBadType sig)])
      ++ expectedFunWarnings name allSigs (counter + 1) rest

/-- Fuel sufficient for the call-signature loop on a signature list. -/
def sigsFuel : List TsSig → Nat
  | [] => 0
  | sig :: rest => (sig.params.length + 2) + sigsFuel rest

/-- The oracle input for the concrete half of C4: class `U` with two
constructor overloads (the second has an unrepresentable parameter), an
unrepresentable field `f`, a good field `g`, and a method `m` with two call
signatures (the first has an unrepresentable parameter). -/
def envU : Env := [("U", ⟨none,
  [.ctorM [[⟨"a", .numberT⟩], [⟨"b", .unusableT "Weird"⟩]],
   .propM "f" (.unusableT "Odd"),
   .propM "g" .numberT,
   .methodM "m" [⟨[⟨"x", .unusableT "Bad"⟩], .voidT⟩, ⟨[], .stringT⟩]]⟩)]

/-- The node built for `U`: every resolvable unit survives, every
unrepresentable unit is dropped individually. -/
def classU : ClassGen :=
  { name := "U", abstract := false, inherit := none,
    fields := [⟨"g", .literalTypeGen "float"⟩],
    constructors := [⟨[⟨"a", .literalTypeGen "float"⟩]⟩],
    methods := [⟨"m", [], .literalTypeGen "cstring"⟩],
    inited := true, invalid := false }

/-! ### Properties of the dependency graph construction -/

theorem lookupNode_setNodeL (k : String) (v : Option GenTop) :
    ∀ (l : List (String × Option GenTop)) (k' : String),
      lookupNode (setNodeL l k v) k' = if k' = k then some v else lookupNode l k'
  | [], k' => by
    simp only [setNodeL, lookupNode]
    by_cases h : k' = k
    · subst h; rfl
    · rw [if_neg (fun hh => h hh.symm), if_neg h]
  | kv :: rest, k' => by
    by_cases hk : kv.1 = k
    · simp only [setNodeL, if_pos hk, lookupNode]
      by_cases h : k' = k
      · subst h; rw [if_pos rfl, if_pos rfl]
      · rw [if_neg (fun hh => h hh.symm), if_neg h,
            if_neg (fun hh => h ((hk.symm.trans hh).symm))]
    · simp only [setNodeL, if_neg hk, lookupNode]
      by_cases h2 : kv.1 = k'
      · rw [if_pos h2, if_neg (fun hh : k' = k => hk (h2.trans hh)), if_pos h2]
      · simp only [if_neg h2]
        rw [lookupNode_setNodeL k v rest k']

theorem lookupNode_append_single (k : String) (v : Option GenTop) :
    ∀ (l : List (String × Option GenTop)) (k' : String),
      lookupNode (l ++ [(k, v)]) k' =
        match lookupNode l k' with
        | some w => some w
        | none => if k = k' then some v else none
  | [], k' => by simp [lookupNode]
  | kv :: rest, k' => by
    by_cases h : kv.1 = k' <;>
      simp [lookupNode, h, lookupNode_append_single k v rest k']

theorem nodeValue_setNode (g : DepGraph) (k : String) (v : GenTop) (k' : String) :
    nodeValue (g.setNode k v) k' = if k' = k then some v else nodeValue g k' := by
  unfold nodeValue DepGraph.setNode
  rw [lookupNode_setNodeL]
  by_cases h : k' = k <;> simp [h]

theorem nodeValue_ensureNode (g : DepGraph) (k k' : String) :
    nodeValue (g.ensureNode k) k' = nodeValue g k' := by
  unfold DepGraph.ensureNode
  cases h : lookupNode g.nodes k with
  | some v => rfl
  | none =>
    show nodeValue ⟨g.nodes ++ [(k, none)], g.edges⟩ k' = nodeValue g k'
    unfold nodeValue
    rw [lookupNode_append_single]
    cases h' : lookupNode g.nodes k' with
    | some w => rfl
    | none => by_cases hk : k = k' <;> simp [hk]

theorem edges_ensureNode (g : DepGraph) (k : String) :
    (g.ensureNode k).edges = g.edges := by
  unfold DepGraph.ensureNode
  cases lookupNode g.nodes k <;> rfl

theorem nodeValue_setEdge (g : DepGraph) (a b k : String) :
    nodeValue (g.setEdge a b) k = nodeValue g k := by
  show nodeValue ⟨((g.ensureNode a).ensureNode b).nodes, _⟩ k = _
  have h1 := nodeValue_ensureNode (g.ensureNode a) b k
  have h2 := nodeValue_ensureNode g a k
  unfold nodeValue at *
  simpa [h1] using h2

theorem edges_setEdge (g : DepGraph) (a b : String) :
    (g.setEdge a b).edges = g.edges ++ [(a, b)] := by
  show ((g.ensureNode a).ensureNode b).edges ++ [(a, b)] = _
  rw [edges_ensureNode, edges_ensureNode]

/-- The inner edge loop of `addGen`: node values are untouched and the
edges from the key to each dependency are appended in order. -/
theorem edgesFold_spec (key : String) :
    ∀ (deps : List String) (g0 : DepGraph),
      (∀ k, nodeValue (deps.foldl (fun g' dep => g'.setEdge key dep) g0) k = nodeValue g0 k)
      ∧ (deps.foldl (fun g' dep => g'.setEdge key dep) g0).edges
          = g0.edges ++ deps.map (fun d => (key, d))
  | [], g0 => by simp
  | d :: rest, g0 => by
    have ih := edgesFold_spec key rest (g0.setEdge key d)
    constructor
    · intro k
      simp only [List.foldl_cons]
      rw [ih.1 k, nodeValue_setEdge]
    · simp only [List.foldl_cons, List.map_cons]
      rw [ih.2, edges_setEdge]
      simp

theorem graphInv_addGen {g : DepGraph} (hg : GraphInv g) (gen : GenTop) :
    GraphInv (addGen g gen) := by
  unfold addGen
  obtain ⟨hv, he⟩ := hg
  have hfold := edgesFold_spec gen.dependKey gen.depends (g.setNode gen.dependKey gen)
  constructor
  · intro k gen' hk
    rw [hfold.1 k, nodeValue_setNode] at hk
    rw [hfold.2]
    by_cases h : k = gen.dependKey
    · subst h
      rw [if_pos rfl] at hk
      cases hk
      refine ⟨rfl, fun d hd => ?_⟩
      exact List.mem_append_right _ (List.mem_map_of_mem _ hd)
    · rw [if_neg h] at hk
      obtain ⟨h1, h2⟩ := hv k gen' hk
      exact ⟨h1, fun d hd => List.mem_append_left _ (h2 d hd)⟩
  · intro a b hab
    rw [hfold.2] at hab
    rw [hfold.1 a, nodeValue_setNode]
    by_cases h : a = gen.dependKey
    · exact ⟨gen, if_pos h ▸ rfl⟩
    · rw [if_neg h]
      rcases List.mem_append.1 hab with hold | hnew
      · exact he a b hold
      · exfalso
        obtain ⟨d, _, hd⟩ := List.mem_map.1 hnew
        exact h (congrArg Prod.fst hd).symm

theorem graphInv_buildGraph (gens : List GenTop) : GraphInv (buildGraph gens) := by
  unfold buildGraph
  suffices h : ∀ (l : List GenTop) (g : DepGraph), GraphInv g → GraphInv (l.foldl addGen g) by
    refine h gens {} ⟨?_, ?_⟩
    · intro k gen hk; cases hk
    · intro a b hab; cases hab
  intro l
  induction l with
  | nil => intro g hg; exact hg
  | cons gen rest ih => intro g hg; exact ih _ (graphInv_addGen hg gen)

/-! ### Characterizing the emitter's two outputs -/

theorem sortAndWarn_eq (g : DepGraph) (groups : List (List String)) :
    sortAndWarn g groups =
      (groups.filterMap (pickSingleton g),
       (groups.filter (fun grp => 1 < grp.length)).map (fun grp => grp.map (dependKeyAt g))) := by
  unfold sortAndWarn
  suffices h : ∀ (l : List (List String)) (acc : List GenTop × List (List String)),
      l.foldl (fun acc grp =>
        if 1 < grp.length then (acc.1, acc.2 ++ [grp.map (dependKeyAt g)])
        else
          match grp with
          | [id] =>
              match nodeValue g id with
              | some gen => (acc.1 ++ [gen], acc.2)
              | none => acc
          | _ => acc) acc
      = (acc.1 ++ l.filterMap (pickSingleton g),
         acc.2 ++ (l.filter (fun grp => 1 < grp.length)).map (fun grp => grp.map (dependKeyAt g))) by
    rw [h groups ([], [])]; simp
  intro l
  induction l with
  | nil => intro acc; simp
  | cons grp rest ih =>
    intro acc
    simp only [List.foldl_cons]
    by_cases hlen : 1 < grp.length
    · have hpick : pickSingleton g grp = none := by
        match grp with
        | [] => simp at hlen
        | [id] => simp at hlen
        | a :: b :: t => rfl
      rw [if_pos hlen, ih]
      simp [hpick, List.filter_cons, hlen]
    · rw [if_neg hlen]
      match grp with
      | [] =>
        rw [ih]
        simp [pickSingleton, List.filter_cons]
      | [id] =>
        cases hnode : nodeValue g id with
        | some gen =>
          rw [ih]
          simp [pickSingleton, hnode, List.filter_cons]
        | none =>
          rw [ih]
          simp [pickSingleton, hnode, List.filter_cons]
      | a :: b :: t => simp at hlen

/-! ### Index bookkeeping for `List.filterMap` -/

theorem filterMap_get?_exists {α β : Type} (f : α → Option β) :
    ∀ (l : List α) (p : Nat) (x : β), (l.filterMap f).get? p = some x →
      ∃ (i : Nat) (a : α), l.get? i = some a ∧ f a = some x
  | [], p, x, h => by simp at h
  | a :: t, p, x, h => by
    cases hfa : f a with
    | none =>
      rw [List.filterMap_cons_none hfa] at h
      obtain ⟨i, b, hb, hfb⟩ := filterMap_get?_exists f t p x h
      exact ⟨i + 1, b, by simpa using hb, hfb⟩
    | some y =>
      rw [List.filterMap_cons_some hfa] at h
      cases p with
      | zero =>
        simp at h
        exact ⟨0, a, rfl, by rw [hfa, h]⟩
      | succ p' =>
        simp only [List.get?_cons_succ] at h
        obtain ⟨i, b, hb, hfb⟩ := filterMap_get?_exists f t p' x h
        exact ⟨i + 1, b, by simpa using hb, hfb⟩

theorem filterMap_get?_lt {α β : Type} (f : α → Option β) :
    ∀ (l : List α) (p q : Nat) (x y : β), p < q →
      (l.filterMap f).get? p = some x → (l.filterMap f).get? q = some y →
      ∃ (i j : Nat) (a b : α), i < j ∧ l.get? i = some a ∧ l.get? j = some b
        ∧ f a = some x ∧ f b = some y
  | [], p, q, x, y, hpq, hp, hq => by simp at hp
  | a :: t, p, q, x, y, hpq, hp, hq => by
    cases hfa : f a with
    | none =>
      rw [List.filterMap_cons_none hfa] at hp hq
      obtain ⟨i, j, b, c, hij, hb, hc, hfb, hfc⟩ := filterMap_get?_lt f t p q x y hpq hp hq
      exact ⟨i + 1, j + 1, b, c, by omega, by simpa using hb, by simpa using hc, hfb, hfc⟩
    | some z =>
      rw [List.filterMap_cons_some hfa] at hp hq
      cases p with
      | zero =>
        simp at hp
        cases q with
        | zero => omega
        | succ q' =>
          simp only [List.get?_cons_succ] at hq
          obtain ⟨j, c, hc, hfc⟩ := filterMap_get?_exists f t q' y hq
          exact ⟨0, j + 1, a, c, by omega, rfl, by simpa using hc, by rw [hfa, hp], hfc⟩
      | succ p' =>
        cases q with
        | zero => omega
        | succ q' =>
          simp only [List.get?_cons_succ] at hp hq
          obtain ⟨i, j, b, c, hij, hb, hc, hfb, hfc⟩ :=
            filterMap_get?_lt f t p' q' x y (by omega) hp hq
          exact ⟨i + 1, j + 1, b, c, by omega, by simpa using hb, by simpa using hc, hfb, hfc⟩

theorem pickSingleton_eq_some {g : DepGraph} {grp : List String} {gen : GenTop}
    (h : pickSingleton g grp = some gen) :
    ∃ id, grp = [id] ∧ nodeValue g id = some gen := by
  match grp with
  | [] => simp [pickSingleton] at h
  | [id] => exact ⟨id, rfl, h⟩
  | a :: b :: t => simp [pickSingleton] at h

theorem dependKeyAt_of_edge {gens : List GenTop} {a b : String}
    (hab : (a, b) ∈ (buildGraph gens).edges) : dependKeyAt (buildGraph gens) a = a := by
  obtain ⟨hv, he⟩ := graphInv_buildGraph gens
  obtain ⟨gen, hgen⟩ := he a b hab
  unfold dependKeyAt
  rw [hgen]
  exact (hv a gen hgen).1

/-! ## Claims about the dependency graph and the emitter -/

/-- C1, amended.  For every emitted declaration, each of its dependency keys
either names the declaration itself (a self-dependency, which the emitter
keeps: a singleton component survives even with a self-loop), or names
another emitted declaration appearing strictly earlier in the output, or
names nothing emitted at all.  The original claim omitted the
self-dependency case; see the counterexample. -/
theorem emitted_dependencies_not_forward
    (gens : List GenTop) (groups : List (List String))
    (h : SCCValid (buildGraph gens) groups)
    (p : Nat) (gA : GenTop)
    (hp : (sortAndWarn (buildGraph gens) groups).1.get? p = some gA)
    (dep : String) (hdep : dep ∈ gA.depends) :
    dep = gA.dependKey
    ∨ (∃ (q : Nat) (gB : GenTop), q < p
        ∧ (sortAndWarn (buildGraph gens) groups).1.get? q = some gB ∧ gB.dependKey = dep)
    ∨ (∀ gB ∈ (sortAndWarn (buildGraph gens) groups).1, gB.dependKey ≠ dep) := by
  classical
  rw [sortAndWarn_eq] at hp ⊢
  simp only at hp ⊢
  by_cases hmem : ∃ gB ∈ (groups.filterMap (pickSingleton (buildGraph gens))),
      gB.dependKey = dep
  · obtain ⟨gB, hgB, hkey⟩ := hmem
    obtain ⟨q, hq⟩ := List.mem_iff_get?.1 hgB
    rcases Nat.lt_trichotomy q p with hlt | heq | hgt
    · exact Or.inr (Or.inl ⟨q, gB, hlt, hq, hkey⟩)
    · subst heq
      rw [hp] at hq
      cases hq
      exact Or.inl hkey.symm
    · exfalso
      obtain ⟨i, j, grpI, grpJ, hij, hgi, hgj, hpickI, hpickJ⟩ :=
        filterMap_get?_lt (pickSingleton (buildGraph gens)) groups p q gA gB hgt hp hq
      obtain ⟨idA, hIA, hnodeA⟩ := pickSingleton_eq_some hpickI
      obtain ⟨idB, hIB, hnodeB⟩ := pickSingleton_eq_some hpickJ
      obtain ⟨hv, _⟩ := graphInv_buildGraph gens
      obtain ⟨hkeyA, hedgesA⟩ := hv idA gA hnodeA
      obtain ⟨hkeyB, _⟩ := hv idB gB hnodeB
      have hedge : (idA, dep) ∈ (buildGraph gens).edges := hedgesA dep hdep
      have hdepB : dep = idB := by rw [← hkey, hkeyB]
      obtain ⟨hi, hgi'⟩ := List.get?_eq_some.1 hgi
      obtain ⟨hj, hgj'⟩ := List.get?_eq_some.1 hgj
      have hmemA : idA ∈ groups.get ⟨i, hi⟩ := by rw [hgi', hIA]; exact List.mem_singleton_self idA
      have hmemB : dep ∈ groups.get ⟨j, hj⟩ := by
        rw [hgj', hIB, hdepB]; exact List.mem_singleton_self idB
      have := h.rev_topo ⟨i, hi⟩ ⟨j, hj⟩ idA hmemA dep hmemB hedge
      exact absurd (Fin.mk_le_mk.1 this) (by omega)
  · refine Or.inr (Or.inr ?_)
    intro gB hgB hkey
    exact hmem ⟨gB, hgB, hkey⟩

/-- C2.  A component of two or more members is dropped whole: no emitted
declaration carries any of its keys, and all of its member names appear
together in one cycle diagnostic (the source joins exactly this name list
with a comma into a single warning line). -/
theorem cycle_component_dropped_and_reported
    (gens : List GenTop) (groups : List (List String))
    (h : SCCValid (buildGraph gens) groups)
    (grp : List String) (hgrp : grp ∈ groups) (hlen : 1 < grp.length) :
    (∀ k ∈ grp, ∀ gB ∈ (sortAndWarn (buildGraph gens) groups).1, gB.dependKey ≠ k)
    ∧ grp ∈ (sortAndWarn (buildGraph gens) groups).2 := by
  rw [sortAndWarn_eq]
  simp only
  constructor
  · intro k hk gB hgB hkey
    obtain ⟨grp', hgrp', hpick⟩ := List.mem_filterMap.1 hgB
    obtain ⟨idB, hIB, hnodeB⟩ := pickSingleton_eq_some hpick
    obtain ⟨hv, _⟩ := graphInv_buildGraph gens
    have hkeyB : gB.dependKey = idB := (hv idB gB hnodeB).1
    have hkid : k = idB := by rw [← hkey, hkeyB]
    obtain ⟨i, hgi⟩ := List.mem_iff_get.1 hgrp
    obtain ⟨j, hgj⟩ := List.mem_iff_get.1 hgrp'
    have hmem1 : k ∈ groups.get i := by rw [hgi]; exact hk
    have hmem2 : k ∈ groups.get j := by
      rw [hgj, hIB, hkid]; exact List.mem_singleton_self idB
    have hieq := h.disjoint i j k hmem1 hmem2
    rw [hieq, hgj, hIB] at hgi
    rw [← hgi] at hlen
    simp at hlen
  · have hfix : grp.map (dependKeyAt (buildGraph gens)) = grp := by
      have : ∀ k ∈ grp, dependKeyAt (buildGraph gens) k = k := by
        intro k hk
        obtain ⟨b, _, hedge⟩ := h.big_source grp hgrp hlen k hk
        exact dependKeyAt_of_edge hedge
      calc grp.map (dependKeyAt (buildGraph gens)) = grp.map id :=
            List.map_congr_left this
        _ = grp := List.map_id grp
    have hmem : grp ∈ groups.filter (fun grp => 1 < grp.length) :=
      List.mem_filter.2 ⟨hgrp, by simpa using hlen⟩
    have := List.mem_map_of_mem (fun grp => grp.map (dependKeyAt (buildGraph gens))) hmem
    simpa only [hfix] using this

/-- C10.  A built declaration whose dependency keys include its own key (a
self-loop) and whose component is the singleton of that key is still emitted,
and its key appears in no cycle diagnostic: only components of two or more
members are dropped and reported. -/
theorem self_loop_singleton_emitted
    (gens : List GenTop) (groups : List (List String))
    (h : SCCValid (buildGraph gens) groups)
    (id : String) (gen : GenTop)
    (hnode : nodeValue (buildGraph gens) id = some gen)
    (hself : id ∈ gen.depends)
    (hsing : [id] ∈ groups) :
    gen ∈ (sortAndWarn (buildGraph gens) groups).1
    ∧ ∀ w ∈ (sortAndWarn (buildGraph gens) groups).2, id ∉ w := by
  rw [sortAndWarn_eq]
  simp only
  constructor
  · exact List.mem_filterMap.2 ⟨[id], hsing, hnode⟩
  · intro w hw hidw
    obtain ⟨grp', hgrp'f, hweq⟩ := List.mem_map.1 hw
    obtain ⟨hgrp', hlen'⟩ := List.mem_filter.1 hgrp'f
    have hlen : 1 < grp'.length := by simpa using hlen'
    rw [← hweq] at hidw
    obtain ⟨a, ha, hkeya⟩ := List.mem_map.1 hidw
    obtain ⟨b, _, hedge⟩ := h.big_source grp' hgrp' hlen a ha
    have : a = id := by rw [← hkeya, dependKeyAt_of_edge hedge]
    subst this
    obtain ⟨i, hgi⟩ := List.mem_iff_get.1 hsing
    obtain ⟨j, hgj⟩ := List.mem_iff_get.1 hgrp'
    have hmem1 : a ∈ groups.get i := by rw [hgi]; exact List.mem_singleton_self a
    have hmem2 : a ∈ groups.get j := by rw [hgj]; exact ha
    have hieq := h.disjoint i j a hmem1 hmem2
    rw [hieq, hgj] at hgi
    rw [hgi] at hlen
    simp at hlen

/-! ### Concrete scenarios for witnesses and counterexamples -/

theorem sccValid_self : SCCValid (buildGraph gensSelf) groupsSelf := by
  refine ⟨?_, ?_, ?_, ?_, ?_, ?_⟩ <;> decide

theorem sccValid_AB : SCCValid (buildGraph gensAB) groupsAB := by
  refine ⟨?_, ?_, ?_, ?_, ?_, ?_⟩ <;> decide

/-- C1, counterexample to the original claim.  For the class `A` with a field
of its own type, the emitter emits `A` (a singleton component survives, even
with a self-loop), and `A`'s dependency key list contains `"A"` itself: that
key names an emitted declaration, but not one strictly earlier, so the
original disjunction fails at this input. -/
theorem emitted_self_dependency_counterexample :
    ¬ (∀ (p : Nat) (gA : GenTop),
        (sortAndWarn (buildGraph gensSelf) groupsSelf).1.get? p = some gA →
        ∀ dep ∈ gA.depends,
          (∃ (q : Nat) (gB : GenTop), q < p
            ∧ (sortAndWarn (buildGraph gensSelf) groupsSelf).1.get? q = some gB
            ∧ gB.dependKey = dep)
          ∨ (∀ gB ∈ (sortAndWarn (buildGraph gensSelf) groupsSelf).1,
              gB.dependKey ≠ dep)) := by
  intro hclaim
  have h := hclaim 0 genSelfA (by rfl) "A" (by decide)
  rcases h with ⟨q, gB, hq, _, _⟩ | hnone
  · omega
  · exact hnone genSelfA (by decide) rfl

/-- C1 witness: the amended theorem applied to the self-loop scenario at
position 0 and dependency key `"A"`. -/
theorem emitted_dependencies_not_forward_witness :
    "A" = genSelfA.dependKey
    ∨ (∃ (q : Nat) (gB : GenTop), q < 0
        ∧ (sortAndWarn (buildGraph gensSelf) groupsSelf).1.get? q = some gB
        ∧ gB.dependKey = "A")
    ∨ (∀ gB ∈ (sortAndWarn (buildGraph gensSelf) groupsSelf).1, gB.dependKey ≠ "A") :=
  emitted_dependencies_not_forward gensSelf groupsSelf sccValid_self 0 genSelfA
    (by rfl) "A" (by decide)

/-- C2 witness: the mutual-field classes `A` and `B` form one two-member
component; neither key survives to the output and the diagnostic names both
together. -/
theorem cycle_component_dropped_and_reported_witness :
    (∀ k ∈ ["A", "B"], ∀ gB ∈ (sortAndWarn (buildGraph gensAB) groupsAB).1,
        gB.dependKey ≠ k)
    ∧ ["A", "B"] ∈ (sortAndWarn (buildGraph gensAB) groupsAB).2 :=
  cycle_component_dropped_and_reported gensAB groupsAB sccValid_AB ["A", "B"]
    (by decide) (by decide)

/-- C10 witness: the self-loop class `A` is emitted and appears in no cycle
diagnostic. -/
theorem self_loop_singleton_emitted_witness :
    genSelfA ∈ (sortAndWarn (buildGraph gensSelf) groupsSelf).1
    ∧ ∀ w ∈ (sortAndWarn (buildGraph gensSelf) groupsSelf).2, "A" ∉ w :=
  self_loop_singleton_emitted gensSelf groupsSelf sccValid_self "A" genSelfA
    (by rfl) (by decide) (by decide)

/-! ### Properties of the vendor state primitives -/

theorem lookupClassL_storeClassL (n : String) (c : ClassGen) :
    ∀ (l : List (String × ClassGen)) (n' : String),
      lookupClassL (storeClassL l n c) n' = if n' = n then some c else lookupClassL l n'
  | [], n' => by
    simp only [storeClassL, lookupClassL]
    by_cases h : n = n'
    · subst h; simp
    · rw [if_neg h, if_neg (fun hh => h hh.symm)]
  | (k0, c0) :: rest, n' => by
    by_cases hk : k0 = n
    · simp only [storeClassL, if_pos hk, lookupClassL]
      by_cases h : n' = n
      · rw [if_pos (hk.trans h.symm), if_pos h]
      · rw [if_neg (fun hh : k0 = n' => h (hh.symm.trans hk)), if_neg h,
            if_neg (fun hh : k0 = n' => h (hh.symm.trans hk))]
    · simp only [storeClassL, if_neg hk, lookupClassL]
      by_cases h2 : k0 = n'
      · rw [if_pos h2, if_pos h2, if_neg (fun hh : n' = n => hk (h2.trans hh))]
      · rw [if_neg h2, if_neg h2, lookupClassL_storeClassL n c rest n']

theorem lookupClass_storeClass (s : VState) (n : String) (c : ClassGen) (n' : String) :
    lookupClass (storeClass s n c) n' = if n' = n then some c else lookupClass s n' :=
  lookupClassL_storeClassL n c s.classes n'

theorem lookupClassL_markInvalidL (n : String) :
    ∀ (l : List (String × ClassGen)) (n' : String),
      lookupClassL (markInvalidL l n) n'
        = if n' = n then (lookupClassL l n').map (fun g => { g with invalid := true })
          else lookupClassL l n'
  | [], n' => by
    simp only [markInvalidL, lookupClassL]
    by_cases h : n' = n <;> simp [h]
  | (k0, c0) :: rest, n' => by
    have ih := lookupClassL_markInvalidL n rest n'
    by_cases hk : k0 = n
    · by_cases h2 : k0 = n'
      · subst hk; subst h2
        simp [markInvalidL, lookupClassL, ih]
      · subst hk
        have hn : ¬ n' = k0 := fun hh => h2 hh.symm
        simp [markInvalidL, lookupClassL, h2, hn, ih]
    · by_cases h2 : k0 = n'
      · subst h2
        simp [markInvalidL, lookupClassL, hk, ih]
      · simp [markInvalidL, lookupClassL, hk, h2, ih]

theorem lookupClass_markInvalid (s : VState) (n n' : String) :
    lookupClass (markInvalid s n) n'
      = if n' = n then (lookupClass s n').map (fun g => { g with invalid := true })
        else lookupClass s n' :=
  lookupClassL_markInvalidL n s.classes n'

theorem lookupClass_warn (s : VState) (msg : String) (n : String) :
    lookupClass (warn s msg) n = lookupClass s n := rfl

/-! ### Presence of memoized nodes is monotone

No builder operation ever removes a name from the memoization table (in the
JavaScript source the table's entries are object references that are only
added and mutated, never deleted).  This is the invariant behind C8: the node
stored for a failing class is still there when the `catch` block marks it
invalid. -/

theorem keyPres_refl (s : VState) : keyPres s s := fun _ h => h

theorem keyPres_trans {s1 s2 s3 : VState} (h1 : keyPres s1 s2) (h2 : keyPres s2 s3) :
    keyPres s1 s3 := fun n h => h2 n (h1 n h)

theorem keyPres_storeClass (s : VState) (n : String) (c : ClassGen) :
    keyPres s (storeClass s n c) := by
  intro n' h
  rw [lookupClass_storeClass]
  by_cases hn : n' = n <;> simp [hn]
  exact h

theorem keyPres_warn (s : VState) (msg : String) : keyPres s (warn s msg) :=
  fun _ h => h

theorem keyPres_markInvalid (s : VState) (n : String) : keyPres s (markInvalid s n) := by
  intro n' h
  rw [lookupClass_markInvalid]
  by_cases hn : n' = n
  · rw [if_pos hn]
    cases hl : lookupClass s n' with
    | some g => simp
    | none => rw [hl] at h; simp at h
  · rw [if_neg hn]; exact h

/-- The presence statement for every builder function at a given fuel. -/
theorem presAll : ∀ fuel, PresAll fuel := by
  intro fuel
  induction fuel with
  | zero =>
    refine ⟨?_, ?_, ?_, ?_, ?_, ?_, ?_, ?_, ?_⟩
    · intro env s t
      cases t <;> exact keyPres_refl s
    · intro env s ps
      cases ps <;> exact keyPres_refl s
    · intro env s n sig
      exact keyPres_refl s
    · intro env s cn fnd acc ovs
      cases ovs <;> exact keyPres_refl s
    · intro env s cn mn allS cnt sigs acc
      cases sigs <;> exact keyPres_refl s
    · intro env s cn ig acc m
      exact keyPres_refl s
    · intro env s cn ig acc ms
      cases ms <;> exact keyPres_refl s
    · intro env s n ab
      exact keyPres_refl s
    · intro env s n ab
      simp only [classGen]
      rcases hl : lookupClass s n with _ | g
      · by_cases hb : blacklisted "class" n <;> simp [hb] <;> exact keyPres_refl s
      · by_cases hi : g.invalid <;> simp [hi] <;> exact keyPres_refl s
  | succ fuel ih =>
    obtain ⟨ihT, ihP, ihS, ihCF, ihMF, ihPM, ihMems, ihBody, ihCG⟩ := ih
    have hT : ∀ env s t, keyPres s (typeGen env (fuel + 1) s t).1 := by
      intro env s t
      cases t <;> try exact keyPres_refl s
      case classT n =>
        simp only [typeGen]
        split
        next s1 c heq => have := ihCG env s n false; rwa [heq] at this
        next s1 e heq => have := ihCG env s n false; rwa [heq] at this
    have hP : ∀ env s ps, keyPres s (paramsGen env (fuel + 1) s ps).1 := by
      intro env s ps
      cases ps with
      | nil => exact keyPres_refl s
      | cons p rest =>
        simp only [paramsGen]
        split
        next s1 t heq =>
          have k1 : keyPres s s1 := by have := ihT env s p.type; rwa [heq] at this
          split
          next s2 ts heq2 =>
            refine keyPres_trans k1 ?_
            have := ihP env s1 rest; rwa [heq2] at this
          next s2 e heq2 =>
            refine keyPres_trans k1 ?_
            have := ihP env s1 rest; rwa [heq2] at this
        next s1 e heq =>
          have := ihT env s p.type; rwa [heq] at this
    have hS : ∀ env s n sig, keyPres s (signatureGen env (fuel + 1) s n sig).1 := by
      intro env s n sig
      simp only [signatureGen]
      split
      next s1 ps heq =>
        have k1 : keyPres s s1 := by have := ihP env s sig.params; rwa [heq] at this
        split
        next s2 r heq2 =>
          refine keyPres_trans k1 ?_
          have := ihT env s1 sig.ret; rwa [heq2] at this
        next s2 e heq2 =>
          refine keyPres_trans k1 ?_
          have := ihT env s1 sig.ret; rwa [heq2] at this
      next s1 e heq =>
        have := ihP env s sig.params; rwa [heq] at this
    have hCF : ∀ env s cn fnd acc ovs,
        keyPres s (ctorDeclsFold env (fuel + 1) s cn fnd acc ovs).1 := by
      intro env s cn fnd acc ovs
      cases ovs with
      | nil => exact keyPres_refl s
      | cons ov rest =>
        simp only [ctorDeclsFold]
        split
        next s1 ps heq =>
          have k1 : keyPres s s1 := by have := ihP env s ov; rwa [heq] at this
          exact keyPres_trans k1 (ihCF env s1 cn (fnd + 1) (acc ++ [⟨ps⟩]) rest)
        next s1 ty heq =>
          have k1 : keyPres s s1 := by have := ihP env s ov; rwa [heq] at this
          exact keyPres_trans k1 (keyPres_trans (keyPres_warn s1 _) (ihCF env _ cn (fnd + 1) acc rest))
        next s1 e hne hne2 heq =>
          have := ihP env s ov; rwa [heq] at this
    have hMF : ∀ env s cn mn allS cnt sigs acc,
        keyPres s (methodSigsFold env (fuel + 1) s cn mn allS cnt sigs acc).1 := by
      intro env s cn mn allS cnt sigs acc
      cases sigs with
      | nil => exact keyPres_refl s
      | cons sig rest =>
        simp only [methodSigsFold]
        split
        next s1 g heq =>
          have k1 : keyPres s s1 := by have := ihS env s mn sig; rwa [heq] at this
          exact keyPres_trans k1 (ihMF env s1 cn mn allS (cnt + 1) rest (acc ++ [g]))
        next s1 ty heq =>
          have k1 : keyPres s s1 := by have := ihS env s mn sig; rwa [heq] at this
          exact keyPres_trans k1
            (keyPres_trans (keyPres_warn s1 _) (ihMF env _ cn mn allS (cnt + 1) rest acc))
        next s1 e hne hne2 heq =>
          have := ihS env s mn sig; rwa [heq] at this
    have hPM : ∀ env s cn ig acc m, keyPres s (processMember env (fuel + 1) s cn ig acc m).1 := by
      intro env s cn ig acc m
      cases m with
      | ctorM overloads =>
        simp only [processMember]
        split
        next s1 found ctors heq =>
          have := ihCF env s cn acc.foundConstructors acc.constructors overloads
          rwa [heq] at this
        next s1 e heq =>
          have := ihCF env s cn acc.foundConstructors acc.constructors overloads
          rwa [heq] at this
      | propM fname ftype =>
        simp only [processMember]
        by_cases hb : blacklisted "field" (cn ++ "." ++ fname)
        · simp only [if_pos hb]
          exact keyPres_warn s _
        · simp only [if_neg hb]
          by_cases hch : chainHasField s fuel ig fname
          · simp only [hch, Bool.not_true, Bool.false_eq_true, if_false]
            exact keyPres_refl s
          · rw [Bool.not_eq_true] at hch
            simp only [hch, Bool.not_false, if_true]
            split
            next s1 t heq =>
              have := ihT env s ftype; rwa [heq] at this
            next s1 ty heq =>
              have k1 : keyPres s s1 := by have := ihT env s ftype; rwa [heq] at this
              exact keyPres_trans k1 (keyPres_warn s1 _)
            next s1 e hne hne2 heq =>
              have := ihT env s ftype; rwa [heq] at this
      | methodM mname sigs =>
        simp only [processMember]
        by_cases hb : blacklisted "field" (cn ++ "." ++ mname)
        · simp only [if_pos hb]
          exact keyPres_warn s _
        · simp only [if_neg hb]
          split
          next s1 ms heq =>
            have := ihMF env s cn mname sigs 0 sigs acc.methods; rwa [heq] at this
          next s1 e heq =>
            have := ihMF env s cn mname sigs 0 sigs acc.methods; rwa [heq] at this
      | otherM mname =>
        simp only [processMember]
        exact keyPres_warn s _
    have hMems : ∀ env s cn ig acc ms, keyPres s (membersFold env (fuel + 1) s cn ig acc ms).1 := by
      intro env s cn ig acc ms
      cases ms with
      | nil => exact keyPres_refl s
      | cons m rest =>
        simp only [membersFold]
        split
        next s1 acc' heq =>
          have k1 : keyPres s s1 := by have := ihPM env s cn ig acc m; rwa [heq] at this
          exact keyPres_trans k1 (ihMems env s1 cn ig acc' rest)
        next s1 e heq =>
          have := ihPM env s cn ig acc m; rwa [heq] at this
    have hBody : ∀ env s n ab, keyPres s (classBody env (fuel + 1) s n ab).1 := by
      intro env s n ab
      simp only [classBody]
      split
      · exact keyPres_refl s
      next sym hsym =>
        split
        next s1 e heq =>
          split at heq
          · cases heq
          next pname hpar =>
            split at heq
            next s2 ig heq2 =>
              split at heq
              · cases heq
              · cases heq
                have := ihCG env s pname false
                rwa [heq2] at this
            next s2 e2 heq2 =>
              cases heq
              have := ihCG env s pname false
              rwa [heq2] at this
        next s1 inheritGen heq =>
          have k1 : keyPres s s1 := by
            split at heq
            · cases heq
              exact keyPres_refl s
            next pname hpar =>
              split at heq
              next s2 ig heq2 =>
                split at heq
                · cases heq
                  have := ihCG env s pname false
                  rwa [heq2] at this
                · cases heq
              next s2 e2 heq2 => cases heq
          refine keyPres_trans k1 ?_
          split
          next s2 e heq2 =>
            have := ihMems env s1 n inheritGen {} sym.members; rwa [heq2] at this
          next s2 acc heq2 =>
            have k2 : keyPres s1 s2 := by
              have := ihMems env s1 n inheritGen {} sym.members; rwa [heq2] at this
            exact keyPres_trans k2 (keyPres_storeClass s2 n _)
    have hCG : ∀ env s n ab, keyPres s (classGen env (fuel + 1) s n ab).1 := by
      intro env s n ab
      simp only [classGen]
      rcases hl : lookupClass s n with _ | g
      · by_cases hb : blacklisted "class" n
        · simp only [if_pos hb]
          exact keyPres_refl s
        · simp only [if_neg hb]
          have k1 := keyPres_storeClass s n ({ name := n, abstract := ab } : ClassGen)
          split
          next s2 c heq =>
            refine keyPres_trans k1 ?_
            have := ihBody env (storeClass s n { name := n, abstract := ab }) n ab
            rwa [heq] at this
          next s2 e heq =>
            refine keyPres_trans k1 ?_
            refine keyPres_trans ?_ (keyPres_markInvalid s2 n)
            have := ihBody env (storeClass s n { name := n, abstract := ab }) n ab
            rwa [heq] at this
      · by_cases hi : g.invalid
        · simp only [if_pos hi]
          exact keyPres_refl s
        · simp only [if_neg hi]
          exact keyPres_refl s
    exact ⟨hT, hP, hS, hCF, hMF, hPM, hMems, hBody, hCG⟩

/-! ### Unfolding lemmas for `classGen`'s entry paths -/

/-- Memo hit on a valid node: the node is returned and the state untouched. -/
theorem classGen_memo (env : Env) (fuel : Nat) (s : VState) (name : String) (ab : Bool)
    (g : ClassGen) (h : lookupClass s name = some g) (hv : g.invalid = false) :
    classGen env fuel s name ab = (s, .ok g) := by
  cases fuel
  all_goals
    simp only [classGen]
    split
    next already heq =>
      rw [h] at heq
      cases heq
      rw [if_neg (by simp [hv])]
    next heq => rw [h] at heq; cases heq

/-- Memo hit on an invalid node: the reuse error, state untouched. -/
theorem classGen_memo_invalid (env : Env) (fuel : Nat) (s : VState) (name : String)
    (ab : Bool) (g : ClassGen) (h : lookupClass s name = some g) (hv : g.invalid = true) :
    classGen env fuel s name ab
      = (s, .error (.genConstructFail "Tried to reuse unbuildable type")) := by
  cases fuel
  all_goals
    simp only [classGen]
    split
    next already heq =>
      rw [h] at heq
      cases heq
      rw [if_pos hv]
    next heq => rw [h] at heq; cases heq

/-- Fresh name, not blacklisted: the `building` node is stored, the body runs,
and a failing body marks the node invalid. -/
theorem classGen_fresh (env : Env) (fuel : Nat) (s : VState) (name : String) (ab : Bool)
    (hfresh : lookupClass s name = none) (hbl : blacklisted "class" name = false) :
    classGen env (fuel + 1) s name ab =
      match classBody env fuel (storeClass s name { name := name, abstract := ab }) name ab with
      | (s', .ok c) => (s', .ok c)
      | (s', .error e) => (markInvalid s' name, .error e) := by
  simp only [classGen]
  split
  next already heq => rw [hfresh] at heq; cases heq
  next heq => rw [hbl]; rfl

/-! ## Claims about the builder lifecycle -/

/-- C8.  (1) Reusing a name whose memoized node is invalid fails immediately
with the "previously unbuildable" error and leaves the state untouched.
(2) A structured-type node that fails at any point before completing
construction (any error escaping the body of a fresh, non-blacklisted build)
leaves behind a node for that name marked invalid. -/
theorem failed_node_invalid_and_reuse_fails :
    (∀ (env : Env) (fuel : Nat) (s : VState) (name : String) (abstract : Bool) (g : ClassGen),
      lookupClass s name = some g → g.invalid = true →
      classGen env fuel s name abstract
        = (s, .error (.genConstructFail "Tried to reuse unbuildable type")))
    ∧ (∀ (env : Env) (fuel : Nat) (s : VState) (name : String) (abstract : Bool)
        (s' : VState) (e : GenError),
      lookupClass s name = none → blacklisted "class" name = false →
      classGen env (fuel + 1) s name abstract = (s', .error e) →
      ∃ g', lookupClass s' name = some g' ∧ g'.invalid = true) := by
  constructor
  · intro env fuel s name ab g hl hi
    exact classGen_memo_invalid env fuel s name ab g hl hi
  · intro env fuel s name ab s' e hfresh hbl h
    rw [classGen_fresh env fuel s name ab hfresh hbl] at h
    split at h
    next s2 c heq => cases h
    next s2 e2 heq =>
      cases h
      rw [lookupClass_markInvalid, if_pos rfl]
      obtain ⟨_, _, _, _, _, _, _, hBodyPres, _⟩ := presAll fuel
      have hpres := hBodyPres env (storeClass s name { name := name, abstract := ab }) name ab
      rw [heq] at hpres
      have h1 : (lookupClass (storeClass s name { name := name, abstract := ab }) name).isSome := by
        rw [lookupClass_storeClass, if_pos rfl]; rfl
      have h2 : (lookupClass s2 name).isSome := hpres name h1
      cases hl2 : lookupClass s2 name with
      | none => rw [hl2] at h2; cases h2
      | some g2 => exact ⟨{ g2 with invalid := true }, rfl, rfl⟩

/-- C8 witness: a state holding an invalid node `Bad`; reusing it fails with
the exact error and unchanged state. -/
theorem failed_node_invalid_and_reuse_fails_witness :
    classGen [] 3 ⟨[("Bad", { name := "Bad", abstract := false, invalid := true })], []⟩ "Bad" false
      = (⟨[("Bad", { name := "Bad", abstract := false, invalid := true })], []⟩,
         .error (.genConstructFail "Tried to reuse unbuildable type")) :=
  failed_node_invalid_and_reuse_fails.1 [] 3
    ⟨[("Bad", { name := "Bad", abstract := false, invalid := true })], []⟩ "Bad" false
    { name := "Bad", abstract := false, invalid := true } (by rfl) (by rfl)

/-- C7, amended.  The original claim says any re-reference to a `building`
node is a construction failure; in the code only the inheritance path checks
the under-construction state (a field- or parameter-type reference simply
returns the memoized node, see the counterexample).  Amended: when the
declared parent's node is still building (memoized but not yet inited),
building the child fails with the descriptive mutual-recursion error rather
than looping, and the child's node is marked invalid. -/
theorem parent_building_fails_descriptively
    (env : Env) (fuel : Nat) (s : VState) (name pname : String) (abstract : Bool)
    (sym : TsClass) (pg : ClassGen)
    (hfind : envFind env name = some sym)
    (hpar : sym.parent = some pname)
    (hfresh : lookupClass s name = none)
    (hbl : blacklisted "class" name = false)
    (hpg : lookupClass s pname = some pg)
    (hbuilding : pg.inited = false) (hvalid : pg.invalid = false) :
    classGen env (fuel + 2) s name abstract
      = (markInvalid (storeClass s name { name := name, abstract := abstract }) name,
         .error (.genConstructFail (name ++ " is mutually recursive with its ancestor "
           ++ pname ++ " in a confusing way")))
    ∧ ∃ g', lookupClass
          (markInvalid (storeClass s name { name := name, abstract := abstract }) name) name
        = some g' ∧ g'.invalid = true := by
  have hne : ¬ pname = name := by
    intro hh; rw [hh, hfresh] at hpg; cases hpg
  have hpg1 : lookupClass (storeClass s name { name := name, abstract := abstract }) pname
      = some pg := by
    rw [lookupClass_storeClass, if_neg hne]; exact hpg
  have hbody : classBody env (fuel + 1) (storeClass s name { name := name, abstract := abstract })
      name abstract
      = (storeClass s name { name := name, abstract := abstract },
         .error (.genConstructFail (name ++ " is mutually recursive with its ancestor "
           ++ pname ++ " in a confusing way"))) := by
    simp only [classBody]
    split
    next heq => rw [hfind] at heq; cases heq
    next sym2 heq =>
      rw [hfind] at heq
      cases heq
      split
      next s1' e heq2 =>
        split at heq2
        next hpar2 => rw [hpar] at hpar2; cases hpar2
        next pname2 hpar2 =>
          rw [hpar] at hpar2
          cases hpar2
          rw [classGen_memo env fuel _ pname false pg hpg1 hvalid] at heq2
          have heq2' : (if pg.inited
              then ((storeClass s name { name := name, abstract := abstract } : VState),
                    Except.ok (some pg))
              else (storeClass s name { name := name, abstract := abstract },
                    Except.error (GenError.genConstructFail (name
                      ++ " is mutually recursive with its ancestor " ++ pname
                      ++ " in a confusing way"))))
              = (s1', Except.error e) := heq2
          rw [hbuilding] at heq2'
          simp only [Bool.false_eq_true, if_false] at heq2'
          cases heq2'
          rfl
      next s1' ig heq2 =>
        split at heq2
        next hpar2 => rw [hpar] at hpar2; cases hpar2
        next pname2 hpar2 =>
          rw [hpar] at hpar2
          cases hpar2
          rw [classGen_memo env fuel _ pname false pg hpg1 hvalid] at heq2
          have heq2' : (if pg.inited
              then ((storeClass s name { name := name, abstract := abstract } : VState),
                    Except.ok (some pg))
              else (storeClass s name { name := name, abstract := abstract },
                    Except.error (GenError.genConstructFail (name
                      ++ " is mutually recursive with its ancestor " ++ pname
                      ++ " in a confusing way"))))
              = (s1', Except.ok ig) := heq2
          rw [hbuilding] at heq2'
          simp only [Bool.false_eq_true, if_false] at heq2'
          cases heq2'
  constructor
  · rw [classGen_fresh env (fuel + 1) s name abstract hfresh hbl, hbody]
  · rw [lookupClass_markInvalid, if_pos rfl, lookupClass_storeClass, if_pos rfl]
    exact ⟨_, rfl, rfl⟩

/-- C7, counterexample to the original claim.  The class `A` of `envSelf`
references itself through a field type while it is still `building`: the
builder re-enters `classGen "A"`, gets the memoized, not-yet-inited node back,
and the construction nevertheless SUCCEEDS, producing the self-typed field.
So "a structured type referenced again before its construction completes
causes a construction failure" is false as stated: only the inheritance path
fails. -/
theorem self_reference_while_building_succeeds_counterexample :
    (classGen envSelf 30 {} "A" false).2
      = .ok { name := "A", abstract := false, inherit := none,
              fields := [⟨"x", .classTypeGen "A"⟩], constructors := [⟨[]⟩],
              methods := [], inited := true, invalid := false } := by rfl

/-- C7 witness: building `C` while its declared parent `P` is still building
fails with the descriptive mutual-recursion error and marks `C` invalid. -/
theorem parent_building_fails_descriptively_witness :
    classGen envCP 5 stateP "C" false
      = (markInvalid (storeClass stateP "C" { name := "C", abstract := false }) "C",
         .error (.genConstructFail
           "C is mutually recursive with its ancestor P in a confusing way"))
    ∧ ∃ g', lookupClass
          (markInvalid (storeClass stateP "C" { name := "C", abstract := false }) "C") "C"
        = some g' ∧ g'.invalid = true :=
  parent_building_fails_descriptively envCP 3 stateP "C" "P" false
    ⟨some "P", []⟩ { name := "P", abstract := false }
    (by rfl) (by rfl) (by rfl) (by rfl) (by rfl) (by rfl) (by rfl)

/-! ## Claims about member processing -/

/-- C9, amended.  A member field whose name is already present in the
ancestor chain is never added to the class's fields.  It is dropped silently
— state, fields and warnings untouched — unless the field is denylisted, in
which case the denylist check (which the source runs first) emits its own
warning; the original claim's "no warning is emitted for it" overlooked that
precedence, see the counterexample. -/
theorem chain_field_dropped
    (env : Env) (fuel : Nat) (s : VState) (className fname : String)
    (inheritGen : Option ClassGen) (acc : MemberAcc) (ftype : TsTypeF)
    (hchain : chainHasField s fuel inheritGen fname = true) :
    processMember env (fuel + 1) s className inheritGen acc (.propM fname ftype)
      = (if blacklisted "field" (className ++ "." ++ fname)
         then (warn s ("Refusing to translate blacklisted field " ++ fname
                ++ " of class " ++ className), .ok acc)
         else (s, .ok acc)) := by
  simp only [processMember]
  by_cases hb : blacklisted "field" (className ++ "." ++ fname)
  · simp [hb]
  · simp [hb, hchain]

/-- C9, counterexample to the original claim.  For class `Element` with
member field `webkitRequestFullScreen`, the field name is present in the
ancestor chain, yet processing it EMITS a warning (the denylist branch runs
first), contradicting "dropped silently (no warning is emitted for it)". -/
theorem blacklisted_chain_field_warns_counterexample :
    chainHasField {} 4 (some parentElement) "webkitRequestFullScreen" = true
    ∧ processMember [] 5 {} "Element" (some parentElement) {}
        (.propM "webkitRequestFullScreen" .numberT)
      = (warn {} "Refusing to translate blacklisted field webkitRequestFullScreen of class Element",
         .ok {}) :=
  ⟨by decide, by rfl⟩

/-- C9 witness: a field `x` of class `C` whose parent already has `x` is
dropped with no warning and no state change. -/
theorem chain_field_dropped_witness :
    processMember [] 5 {} "C" (some parentWithX) {} (.propM "x" .numberT)
      = (if blacklisted "field" ("C" ++ "." ++ "x")
         then (warn {} ("Refusing to translate blacklisted field " ++ "x"
                ++ " of class " ++ "C"), .ok {})
         else ({}, .ok {})) :=
  chain_field_dropped [] 4 {} "C" "x" (some parentWithX) {} .numberT (by decide)

/-! ### Counting constructor declarations (for C3) -/

/-- A member contributing no constructor declarations leaves the
accumulator's constructor list and counter unchanged. -/
theorem processMember_no_ctors
    (env : Env) (fuel : Nat) (s : VState) (cn : String) (ig : Option ClassGen)
    (acc : MemberAcc) (m : TsMember) (s1 : VState) (acc1 : MemberAcc)
    (h : processMember env fuel s cn ig acc m = (s1, .ok acc1))
    (hcnt : memberCtorCount m = 0) :
    acc1.constructors = acc.constructors
      ∧ acc1.foundConstructors = acc.foundConstructors := by
  cases fuel with
  | zero => simp only [processMember] at h; cases h
  | succ f =>
    cases m with
    | ctorM ovs =>
      simp only [memberCtorCount] at hcnt
      have hovs : ovs = [] := List.length_eq_zero.1 hcnt
      subst hovs
      simp only [processMember] at h
      split at h
      next fnd ctors heq =>
        cases h
        cases f with
        | zero =>
          simp only [ctorDeclsFold] at heq
          cases heq
          exact ⟨rfl, rfl⟩
        | succ f' =>
          simp only [ctorDeclsFold] at heq
          cases heq
          exact ⟨rfl, rfl⟩
      next e heq => cases h
    | propM fname ftype =>
      simp only [processMember] at h
      split at h
      · cases h; exact ⟨rfl, rfl⟩
      · split at h
        · split at h
          next s2 t heq => cases h; exact ⟨rfl, rfl⟩
          next s2 ty heq => cases h; exact ⟨rfl, rfl⟩
          next s2 e h1 h2 heq => cases h
        · cases h; exact ⟨rfl, rfl⟩
    | methodM mname sigs =>
      simp only [processMember] at h
      split at h
      · cases h; exact ⟨rfl, rfl⟩
      · split at h
        next s2 ms heq => cases h; exact ⟨rfl, rfl⟩
        next s2 e heq => cases h
    | otherM mname =>
      simp only [processMember] at h
      cases h
      exact ⟨rfl, rfl⟩

/-- A member table with no constructor declarations leaves the constructor
list and counter of the accumulator unchanged through the whole loop. -/
theorem membersFold_no_ctors (env : Env) :
    ∀ (ms : List TsMember) (fuel : Nat) (s : VState) (cn : String) (ig : Option ClassGen)
      (acc : MemberAcc) (s' : VState) (acc' : MemberAcc),
      membersFold env fuel s cn ig acc ms = (s', .ok acc') →
      countCtorOverloads ms = 0 →
      acc'.constructors = acc.constructors
        ∧ acc'.foundConstructors = acc.foundConstructors
  | [], fuel, s, cn, ig, acc, s', acc', h, hcnt => by
    cases fuel with
    | zero => simp only [membersFold] at h; cases h; exact ⟨rfl, rfl⟩
    | succ f => simp only [membersFold] at h; cases h; exact ⟨rfl, rfl⟩
  | m :: rest, fuel, s, cn, ig, acc, s', acc', h, hcnt => by
    cases fuel with
    | zero => simp only [membersFold] at h; cases h
    | succ f =>
      simp only [membersFold] at h
      split at h
      next s1 acc1 heq =>
        have hm : memberCtorCount m = 0 := by
          simp only [countCtorOverloads, List.map_cons, List.sum_cons] at hcnt
          omega
        have hrest : countCtorOverloads rest = 0 := by
          simp only [countCtorOverloads, List.map_cons, List.sum_cons] at hcnt
          simp only [countCtorOverloads]
          omega
        obtain ⟨h1, h2⟩ := processMember_no_ctors env f s cn ig acc m s1 acc1 heq hm
        obtain ⟨h3, h4⟩ := membersFold_no_ctors env rest f s1 cn ig acc1 s' acc' h hrest
        exact ⟨h3.trans h1, h4.trans h2⟩
      next s1 e heq => cases h

/-- C3, amended.  For a structured type in whose member table no constructor
declaration was FOUND (zero overloads attempted; the source tests
`foundConstructors`, not how many were accepted — see the counterexample):
if it has no declared parent, exactly one zero-parameter constructor is
synthesized; if its declared parent is already built, the parent's resolved
constructor parameter lists are copied onto the child, which keeps its own
name (so each copied constructor renders against the child's own type). -/
theorem no_ctor_decls_fallback
    (env : Env) (fuel : Nat) (s : VState) (name : String) (abstract : Bool)
    (sym : TsClass) (s' : VState) (c : ClassGen)
    (hfind : envFind env name = some sym)
    (hnoctor : countCtorOverloads sym.members = 0)
    (hfresh : lookupClass s name = none)
    (hbl : blacklisted "class" name = false)
    (hok : classGen env (fuel + 2) s name abstract = (s', .ok c)) :
    c.name = name
    ∧ (sym.parent = none → c.constructors = [⟨[]⟩])
    ∧ (∀ (p : String) (pg : ClassGen), sym.parent = some p →
        lookupClass s p = some pg → pg.invalid = false → pg.inited = true →
        c.constructors.map ConstructorGen.params
          = pg.constructors.map ConstructorGen.params) := by
  rw [show fuel + 2 = fuel + 1 + 1 from rfl] at hok
  rw [classGen_fresh env (fuel + 1) s name abstract hfresh hbl] at hok
  split at hok
  next s2 c2 heq =>
    cases hok
    simp only [classBody] at heq
    split at heq
    next hfe => rw [hfind] at hfe; cases hfe
    next sym2 hfe =>
      rw [hfind] at hfe
      cases hfe
      split at heq
      next s1 e hpr => cases heq
      next s1 inheritGen hpr =>
        split at heq
        next s2' e hmf => cases heq
        next s2' acc hmf =>
          cases heq
          obtain ⟨hc3, hf3⟩ := membersFold_no_ctors env sym.members fuel
            s1 name inheritGen {} s2' acc hmf hnoctor
          refine ⟨rfl, ?_, ?_⟩
          · intro hpno
            split at hpr
            next hp2 =>
              cases hpr
              simp [hf3]
            next pname hp2 =>
              rw [hpno] at hp2
              cases hp2
          · intro p pg hpsome hpg hpvalid hpinited
            have hne : ¬ p = name := by
              intro hh; rw [hh, hfresh] at hpg; cases hpg
            have hpg1 : lookupClass (storeClass s name { name := name, abstract := abstract }) p
                = some pg := by
              rw [lookupClass_storeClass, if_neg hne]; exact hpg
            split at hpr
            next hp2 => rw [hpsome] at hp2; cases hp2
            next pname hp2 =>
              rw [hpsome] at hp2
              cases hp2
              rw [classGen_memo env fuel _ p false pg hpg1 hpvalid] at hpr
              have hpr' : (if pg.inited
                  then ((storeClass s name { name := name, abstract := abstract } : VState),
                        Except.ok (some pg))
                  else (storeClass s name { name := name, abstract := abstract },
                        Except.error (GenError.genConstructFail (name
                          ++ " is mutually recursive with its ancestor " ++ p
                          ++ " in a confusing way"))))
                  = (s1, Except.ok inheritGen) := hpr
              rw [hpinited] at hpr'
              simp only [if_true] at hpr'
              cases hpr'
              simp only [hf3, if_pos rfl]
              simp [List.map_map, Function.comp]
  next s2 e2 heq => cases hok

/-- C3, counterexample to the original claim.  Class `K` declares ONE
constructor overload, which fails to resolve (unrepresentable parameter), so
no constructor is accepted; its parent `P` has one resolved constructor.
The fallback is NOT taken — the source tests `foundConstructors` (overloads
found), not overloads accepted — and `K` ends up with zero constructors
instead of a copy of `P`'s. -/
theorem failed_ctor_overload_no_fallback_counterexample :
    (classGen envK 30 statePBuilt "K" false).2
      = .ok { name := "K", abstract := false, inherit := some "P", fields := [],
              constructors := [], methods := [], inited := true, invalid := false }
    ∧ pgP.constructors.map ConstructorGen.params = [[⟨"x", .literalTypeGen "float"⟩]] :=
  ⟨by rfl, by rfl⟩

/-- C3 witness: `K2` has no constructor declarations and a built parent `P`;
the amended theorem yields that `K2` keeps its own name and carries exactly
`P`'s constructor parameter lists. -/
theorem no_ctor_decls_fallback_witness :
    cK2.name = "K2"
    ∧ cK2.constructors.map ConstructorGen.params = pgP.constructors.map ConstructorGen.params :=
  ⟨(no_ctor_decls_fallback envK2 28 statePBuilt "K2" false ⟨some "P", [.methodM "m" [⟨[], .voidT⟩]]⟩
      stateK2out cK2 (by rfl) (by decide) (by rfl) (by decide) (by rfl)).1,
   (no_ctor_decls_fallback envK2 28 statePBuilt "K2" false ⟨some "P", [.methodM "m" [⟨[], .voidT⟩]]⟩
      stateK2out cK2 (by rfl) (by decide) (by rfl) (by decide) (by rfl)).2.2
     "P" pgP (by rfl) (by rfl) (by rfl) (by rfl)⟩

/-! ### Class-free signatures (for C4)

On types the oracle classifies without a class reference, `typeGen` is pure:
it touches no state and either returns the literal translation or throws
`UnusableType`.  This isolates the per-unit failure semantics of C4 from the
memoization side effects. -/

theorem typeGen_simple (env : Env) (fuel : Nat) (s : VState) (t : TsTypeF)
    (h : t.classFree = true) :
    typeGen env fuel s t
      = (s, if t.simpleUsable then .ok (pureType t) else .error (.unusableType t)) := by
  cases t <;> first
    | (cases fuel <;> rfl)
    | (cases h)

theorem paramsGen_classfree (env : Env) :
    ∀ (ps : List TsParam) (fuel : Nat) (s : VState),
      (∀ p ∈ ps, p.type.classFree = true) → ps.length ≤ fuel →
      paramsGen env fuel s ps
        = (s, match ps.find? (fun p => ! p.type.simpleUsable) with
              | some p => .error (.unusableType p.type)
              | none => .ok (ps.map (fun p => ⟨p.name, pureType p.type⟩)))
  | [], fuel, s, hcf, hfuel => by cases fuel <;> rfl
  | p :: rest, fuel, s, hcf, hfuel => by
    cases fuel with
    | zero => simp at hfuel
    | succ f =>
      simp only [paramsGen]
      rw [typeGen_simple env f s p.type (hcf p (by simp))]
      by_cases hu : p.type.simpleUsable
      · rw [if_pos hu]
        show (match paramsGen env f s rest with
              | (s'', Except.ok ts) =>
                  (s'', Except.ok (({ name := p.name, type := pureType p.type } : IdentifierGen) :: ts))
              | (s'', Except.error e) => (s'', Except.error e))
          = _
        rw [paramsGen_classfree env rest f s (fun q hq => hcf q (by simp [hq]))
          (by simpa using hfuel)]
        rw [List.find?_cons_of_neg _ (by simp [hu])]
        cases hfind : rest.find? (fun p => ! p.type.simpleUsable) <;> rfl
      · rw [if_neg hu, List.find?_cons_of_pos _ (by simp [hu])]

theorem signatureGen_classfree (env : Env) (sig : TsSig) (fuel : Nat) (s : VState)
    (name : String) (hcf : classFreeSig sig = true)
    (hfuel : sig.params.length + 1 ≤ fuel) :
    signatureGen env fuel s name sig
      = (s, if sigResolves sig then .ok (pureSig name sig)
            else .error (.unusableType (sigBadType sig))) := by
  cases fuel with
  | zero => simp at hfuel
  | succ f =>
    simp only [classFreeSig, Bool.and_eq_true] at hcf
    simp only [signatureGen]
    rw [paramsGen_classfree env sig.params f s
      (fun q hq => by
        have h1 := hcf.1
        rw [List.all_eq_true] at h1
        exact h1 q hq)
      (by omega)]
    cases hfind : sig.params.find? (fun p => ! p.type.simpleUsable) with
    | some p =>
      have hmem := List.mem_of_find?_eq_some hfind
      have hp0 : p.type.simpleUsable = false := by simpa using List.find?_some hfind
      have hall : sig.params.all (fun q => q.type.simpleUsable) = false := by
        cases hv : sig.params.all (fun q => q.type.simpleUsable) with
        | false => rfl
        | true =>
          rw [List.all_eq_true] at hv
          exact absurd (hv p hmem) (by simp [hp0])
      have hres : sigResolves sig = false := by simp [sigResolves, hall]
      have hbad : sigBadType sig = p.type := by simp [sigBadType, hfind]
      show ((s, Except.error (GenError.unusableType p.type)) : VState × Except GenError SignatureGen)
        = (s, if sigResolves sig then .ok (pureSig name sig)
              else .error (.unusableType (sigBadType sig)))
      rw [hres, hbad]
      rfl
    | none =>
      have hall : sig.params.all (fun q => q.type.simpleUsable) = true := by
        rw [List.all_eq_true]
        intro q hq
        have := List.find?_eq_none.1 hfind q hq
        simpa using this
      have hbad : sigBadType sig = sig.ret := by simp [sigBadType, hfind]
      split
      next s2 r htg =>
        have htg' : ((s, Except.ok (sig.params.map
              (fun p => ({ name := p.name, type := pureType p.type } : IdentifierGen))))
            : VState × Except GenError (List IdentifierGen)) = (s2, Except.ok r) := htg
        cases htg'
        rw [typeGen_simple env f s sig.ret hcf.2]
        by_cases hu : sig.ret.simpleUsable
        · have hres : sigResolves sig = true := by simp [sigResolves, hall, hu]
          rw [if_pos hu, hres]
          rfl
        · have hf : sig.ret.simpleUsable = false := by
            revert hu; cases sig.ret.simpleUsable <;> simp
          have hres : sigResolves sig = false := by simp [sigResolves, hf]
          rw [if_neg (by simp [hf]), hres, hbad]
          rfl
      next s2 e hte =>
        have hte' : ((s, Except.ok (sig.params.map
              (fun p => ({ name := p.name, type := pureType p.type } : IdentifierGen))))
            : VState × Except GenError (List IdentifierGen)) = (s2, Except.error e) := hte
        cases hte'

theorem funSigsFold_classfree (env : Env) (name : String) (allSigs : List TsSig) :
    ∀ (sigs : List TsSig) (fuel : Nat) (counter : Nat) (acc : List SignatureGen) (s : VState),
      (∀ sig ∈ sigs, classFreeSig sig = true) → sigsFuel sigs ≤ fuel →
      funSigsFold env fuel s name allSigs counter sigs acc
        = ({ s with warnings := s.warnings ++ expectedFunWarnings name allSigs counter sigs },
           .ok (acc ++ (sigs.filter sigResolves).map (pureSig name)))
  | [], fuel, counter, acc, s, hcf, hfuel => by
    cases fuel <;> simp [funSigsFold, expectedFunWarnings]
  | sig :: rest, fuel, counter, acc, s, hcf, hfuel => by
    cases fuel with
    | zero => simp [sigsFuel] at hfuel
    | succ f =>
      have hfuel1 : sig.params.length + 1 ≤ f := by
        simp only [sigsFuel] at hfuel; omega
      have hfuel2 : sigsFuel rest ≤ f := by
        simp only [sigsFuel] at hfuel; omega
      simp only [funSigsFold]
      rw [signatureGen_classfree env sig f s name (hcf sig (by simp)) (by omega)]
      by_cases hres : sigResolves sig
      · rw [if_pos hres]
        show funSigsFold env f s name allSigs (counter + 1) rest (acc ++ [pureSig name sig]) = _
        rw [funSigsFold_classfree env name allSigs rest f (counter + 1) (acc ++ [pureSig name sig]) s
          (fun q hq => hcf q (by simp [hq])) hfuel2]
        simp [expectedFunWarnings, hres, List.filter_cons, List.append_assoc]
      · rw [if_neg hres]
        show funSigsFold env f
          (warn s ("Could not translate function " ++ name
            ++ (if counter + 1 > 0 then ", call signature #" ++ toString (counter + 1) else "")
            ++ " because tried to translate " ++ funTypeToString allSigs
            ++ " but couldn't translate type " ++ typeToString (sigBadType sig)))
          name allSigs (counter + 1) rest acc = _
        rw [funSigsFold_classfree env name allSigs rest f (counter + 1) acc _
          (fun q hq => hcf q (by simp [hq])) hfuel2]
        have hresf : sigResolves sig = false := by
          revert hres; cases sigResolves sig <;> simp
        simp [expectedFunWarnings, hresf, List.filter_cons, warn, List.append_assoc]

/-- C4.  An unrepresentable-type failure is absorbed at the smallest
enclosing unit and never aborts the whole function or structured type.
First half: for a non-denylisted function whose signatures are class-free,
`functionGen` always RETURNS (never aborts), keeping exactly the resolvable
signatures in order and emitting exactly one numbered warning per failing
signature.  Second half: building class `U` (one bad constructor overload,
one bad field, one bad method signature, one good unit of each kind)
succeeds, keeps exactly the good units and emits exactly three warnings. -/
theorem unusable_type_isolated_per_unit :
    (∀ (env : Env) (fuel : Nat) (s : VState) (name : String) (sigs : List TsSig),
      blacklisted "variable" name = false →
      (∀ sig ∈ sigs, classFreeSig sig = true) →
      sigsFuel sigs < fuel →
      functionGen env fuel s name sigs
        = ({ s with warnings := s.warnings ++ expectedFunWarnings name sigs 0 sigs },
           .ok ((sigs.filter sigResolves).map (pureSig name))))
    ∧ (classGen envU 30 {} "U" false).2 = .ok classU
    ∧ (classGen envU 30 {} "U" false).1.warnings.length = 3 := by
  refine ⟨?_, by rfl, by rfl⟩
  intro env fuel s name sigs hbl hcf hfuel
  cases fuel with
  | zero => omega
  | succ f =>
    simp only [functionGen, hbl, Bool.false_eq_true, if_false]
    rw [funSigsFold_classfree env name sigs sigs f 0 [] s hcf (by omega)]
    simp

/-- C4 witness: a function `h` with two class-free call signatures, the
first failing on an unrepresentable parameter; the failing one is skipped
with one numbered warning and the other is kept. -/
theorem unusable_type_isolated_per_unit_witness :
    functionGen [] 9 {} "h" [⟨[⟨"x", .unusableT "Bad"⟩], .voidT⟩, ⟨[], .numberT⟩]
      = ({ warnings := expectedFunWarnings "h"
            [⟨[⟨"x", .unusableT "Bad"⟩], .voidT⟩, ⟨[], .numberT⟩] 0
            [⟨[⟨"x", .unusableT "Bad"⟩], .voidT⟩, ⟨[], .numberT⟩] },
         .ok (([⟨[⟨"x", .unusableT "Bad"⟩], .voidT⟩,
                (⟨[], .numberT⟩ : TsSig)].filter sigResolves).map (pureSig "h"))) :=
  unusable_type_isolated_per_unit.1 [] 9 {} "h"
    [⟨[⟨"x", .unusableT "Bad"⟩], .voidT⟩, ⟨[], .numberT⟩]
    (by rfl) (by decide) (by decide)

/-! ## Claims about the identifier sanitizer -/

/-- C5.  The claim states `sanitize(sanitize(x)) = sanitize(x)` for every x.
The code violates it: `identifierScrub` collapses only the FIRST run of two
or more underscores (the regex `/_{2,}/` carries no `g` flag), so on
`"a__b__c"` one application yields `"a_b__c"` and a second application
collapses the second run to `"a_b_c"`.  The code contradicts its own header
comment ("Groups of two or more underscores become single underscores"), so
the claim is recorded as correct and the code as the slip; this theorem
evaluates the code at the failing input. -/
theorem identifierScrub_not_idempotent_at_failing_input :
    identifierScrub (identifierScrub "a__b__c") ≠ identifierScrub "a__b__c"
      ∧ identifierScrub "a__b__c" = "a_b__c"
      ∧ identifierScrub (identifierScrub "a__b__c") = "a_b_c" := by
  refine ⟨by decide, by rfl, by rfl⟩

/-- C6.  The claim states that every run of two or more underscores in the
input is collapsed to a single underscore.  The code collapses only the first
such run: on `"a__b__c"` the output is `"a_b__c"`, whose second run survives
verbatim.  As with C5 the header comment documents the collapse of all
groups, so the claim is recorded as correct and the code as the slip; this
theorem evaluates the code at the failing input and exhibits the surviving
run. -/
theorem identifierScrub_keeps_second_underscore_run :
    identifierScrub "a__b__c" = "a_b__c"
      ∧ hasAdjacentUnderscores (identifierScrub "a__b__c").data = true := by
  refine ⟨by rfl, by decide⟩

end Dts2nim
